import Mathlib

/-!
Shallow embedding of the Real-Time Chat Application backend (Go, `main.go`):
the vote-toggle handlers (`upvoteMessageHandler`, `downvoteMessageHandler`),
the message send handler (`sendMessageHandler`), the WebSocket connection
registry (`clients` map, `wsHandler`), and the dispatch loop
(`handleMessages`, `sendMessageToUser`).  PostgreSQL tables are modelled as
lists of rows, the Redis cache as an association list of hashes, and each
HTTP handler as a pure function from the pre-state (plus an environment of
possible infrastructure failures) to the post-state and response.
-/

namespace RTChat

/-- The `vote_type` column of the `user_votes` table: the code only ever
stores the strings `'upvote'` and `'downvote'`. -/
inductive VoteType where
  | upvote
  | downvote
deriving DecidableEq, Repr

/-- The Go `Message` struct: `{ID, Sender, Receiver, Content, Upvotes,
Downvotes}`, also the shape of a `messages` table row (the `timestamp`
column is represented by the position of the row in the list: ids are
assigned serially and rows are appended in insertion order). -/
structure Message where
  id : String
  sender : String
  receiver : String
  content : String
  upvotes : Int
  downvotes : Int
deriving DecidableEq, Repr

/-- A row of the `user_votes(user_id, message_id, vote_type)` table. -/
structure VoteRecord where
  user_id : String
  message_id : String
  vote_type : VoteType
deriving DecidableEq, Repr

/-- The durable store: the `messages` and `user_votes` tables. -/
structure DB where
  messages : List Message
  user_votes : List VoteRecord
deriving DecidableEq, Repr

/-- A Redis hash at key `message:<id>`: the handlers set the two fields
`upvotes` and `downvotes` separately with `HSet`. -/
structure CacheEntry where
  upvotes : Option Int
  downvotes : Option Int
deriving DecidableEq, Repr

/-- The Redis cache: association list from key to hash. -/
abbrev Cache := List (String × CacheEntry)

/-- The Redis key used by the vote handlers:
`fmt.Sprintf("message:%s", messageId)`. -/
def messageKey (messageId : String) : String :=
  "message:" ++ messageId

/-- Writes one field of a Redis hash, creating the hash when absent
(`HSet` semantics). -/
def hsetWith (c : Cache) (key : String) (f : CacheEntry → CacheEntry) : Cache :=
  if c.any (fun e => e.1 == key) then
    c.map (fun e => if e.1 == key then (e.1, f e.2) else e)
  else
    c ++ [(key, f ⟨none, none⟩)]

/-- Sets the `upvotes` field of the hash at `key`:
`rdb.HSet(ctx, key, "upvotes", v)`. -/
def hsetUpvotes (c : Cache) (key : String) (v : Int) : Cache :=
  hsetWith c key (fun e => { e with upvotes := some v })

/-- Sets the `downvotes` field of the hash at `key`:
`rdb.HSet(ctx, key, "downvotes", v)`. -/
def hsetDownvotes (c : Cache) (key : String) (v : Int) : Cache :=
  hsetWith c key (fun e => { e with downvotes := some v })

/-- The result of `SELECT vote_type FROM user_votes WHERE user_id = $1 AND
message_id = $2`: `none` models `sql.ErrNoRows`. -/
def lookupVote (db : DB) (u m : String) : Option VoteType :=
  (db.user_votes.find? (fun v => v.user_id == u && v.message_id == m)).map (·.vote_type)

/-- The result of `SELECT ... FROM messages WHERE id = $1`:
`none` models `sql.ErrNoRows`. -/
def findMessage (db : DB) (m : String) : Option Message :=
  db.messages.find? (fun msg => msg.id == m)

/-- Models `DELETE FROM user_votes WHERE user_id = $1 AND message_id = $2`. -/
def deleteVote (db : DB) (u m : String) : DB :=
  { db with user_votes := db.user_votes.filter (fun v => !(v.user_id == u && v.message_id == m)) }

/-- Models `UPDATE user_votes SET vote_type = t WHERE user_id = $1 AND
message_id = $2`. -/
def setVoteType (db : DB) (u m : String) (t : VoteType) : DB :=
  { db with user_votes := (db.user_votes.map
      (fun v => if v.user_id == u && v.message_id == m then { v with vote_type := t } else v)) }

/-- Models `INSERT INTO user_votes (user_id, message_id, vote_type) VALUES
($1, $2, t)`. -/
def insertVote (db : DB) (u m : String) (t : VoteType) : DB :=
  { db with user_votes := db.user_votes ++ [⟨u, m, t⟩] }

/-- Models `UPDATE messages SET upvotes = upvotes + $1, downvotes =
downvotes + $2 WHERE id = $3`: a relative, in-database increment of the
stored row, not a write of a previously read value. -/
def bumpCounters (db : DB) (m : String) (du dd : Int) : DB :=
  { db with messages := (db.messages.map
      (fun msg => if msg.id == m then
        { msg with upvotes := msg.upvotes + du, downvotes := msg.downvotes + dd }
      else msg)) }

/-- Infrastructure failures a single vote-handler request can encounter, in
the order the fallible calls appear in the handler body.  `cacheFails`
models the two `HSet` calls failing (their return value is discarded by the
code); `commitFails` models `tx.Commit()` returning an error, in which case
the transaction's writes are not applied to the database. -/
structure Env where
  beginFails : Bool
  selectVoteFails : Bool
  execVoteFails : Bool
  execCountersFails : Bool
  cacheFails : Bool
  commitFails : Bool
deriving DecidableEq, Repr

/-- The environment in which every infrastructure call succeeds. -/
def Env.ok : Env :=
  ⟨false, false, false, false, false, false⟩

/-- Post-state and HTTP response of one vote-handler request.
`broadcastMsg` is the updated message re-read after commit and pushed onto
the `broadcast` channel (absent when the request failed earlier). -/
structure VoteResult where
  db : DB
  cache : Cache
  status : Nat
  error : Option String
  broadcastMsg : Option Message
deriving DecidableEq, Repr

/-- The body of Go `upvoteMessageHandler`: begin a transaction, read the
caller's existing vote and the message's counters, apply the toggle branch
for an upvote request, apply the relative counter update, write both cache
fields (before the commit, using the previously read counters plus the
delta), then commit.  Every error path before the commit rolls the
transaction back, leaving the database unchanged. -/
def upvoteMessageHandler (env : Env) (userId messageId : String)
    (db : DB) (cache : Cache) : VoteResult :=
  if env.beginFails then
    ⟨db, cache, 500, some "Failed to start transaction", none⟩
  else if env.selectVoteFails then
    ⟨db, cache, 500, some "Failed to fetch existing vote", none⟩
  else
    match findMessage db messageId with
    | none => ⟨db, cache, 500, some "Failed to fetch message votes", none⟩
    | some msgRow =>
      let branch : DB × Int × Int × String :=
        match lookupVote db userId messageId with
        | some .upvote => (deleteVote db userId messageId, -1, 0, "Failed to remove upvote")
        | some .downvote => (setVoteType db userId messageId .upvote, 1, -1, "Failed to update vote")
        | none => (insertVote db userId messageId .upvote, 1, 0, "Failed to add upvote")
      if env.execVoteFails then
        ⟨db, cache, 500, some branch.2.2.2, none⟩
      else if env.execCountersFails then
        ⟨db, cache, 500, some "Failed to update vote counts", none⟩
      else
        let dbTx := bumpCounters branch.1 messageId branch.2.1 branch.2.2.1
        let cache1 :=
          if env.cacheFails then cache
          else hsetDownvotes
            (hsetUpvotes cache (messageKey messageId) (msgRow.upvotes + branch.2.1))
            (messageKey messageId) (msgRow.downvotes + branch.2.2.1)
        if env.commitFails then
          ⟨db, cache1, 500, some "Failed to commit transaction", none⟩
        else
          ⟨dbTx, cache1, 200, none, findMessage dbTx messageId⟩

/-- The body of Go `downvoteMessageHandler`, symmetric to
`upvoteMessageHandler` with the roles of the two vote types swapped. -/
def downvoteMessageHandler (env : Env) (userId messageId : String)
    (db : DB) (cache : Cache) : VoteResult :=
  if env.beginFails then
    ⟨db, cache, 500, some "Failed to start transaction", none⟩
  else if env.selectVoteFails then
    ⟨db, cache, 500, some "Failed to fetch existing vote", none⟩
  else
    match findMessage db messageId with
    | none => ⟨db, cache, 500, some "Failed to fetch message votes", none⟩
    | some msgRow =>
      let branch : DB × Int × Int × String :=
        match lookupVote db userId messageId with
        | some .downvote => (deleteVote db userId messageId, 0, -1, "Failed to remove downvote")
        | some .upvote => (setVoteType db userId messageId .downvote, -1, 1, "Failed to update vote")
        | none => (insertVote db userId messageId .downvote, 0, 1, "Failed to add downvote")
      if env.execVoteFails then
        ⟨db, cache, 500, some branch.2.2.2, none⟩
      else if env.execCountersFails then
        ⟨db, cache, 500, some "Failed to update vote counts", none⟩
      else
        let dbTx := bumpCounters branch.1 messageId branch.2.1 branch.2.2.1
        let cache1 :=
          if env.cacheFails then cache
          else hsetDownvotes
            (hsetUpvotes cache (messageKey messageId) (msgRow.upvotes + branch.2.1))
            (messageKey messageId) (msgRow.downvotes + branch.2.2.1)
        if env.commitFails then
          ⟨db, cache1, 500, some "Failed to commit transaction", none⟩
        else
          ⟨dbTx, cache1, 200, none, findMessage dbTx messageId⟩

/-- The `castVote` operation of the spec: dispatches to the upvote or
downvote handler according to the requested type. -/
def castVote (t : VoteType) (userId messageId : String) (env : Env)
    (db : DB) (cache : Cache) : VoteResult :=
  match t with
  | .upvote => upvoteMessageHandler env userId messageId db cache
  | .downvote => downvoteMessageHandler env userId messageId db cache

/-- The database after a `castVote` call in which every infrastructure call
succeeds (cache state does not feed back into the database). -/
def castVoteDB (t : VoteType) (userId messageId : String) (db : DB) : DB :=
  (castVote t userId messageId Env.ok db []).db

/-- A WebSocket connection (Go `Client.Conn`).  `connId` identifies the
underlying socket; `broken` says whether a `WriteJSON` on it fails. -/
structure Conn where
  connId : Nat
  broken : Bool
deriving DecidableEq, Repr

/-- The global `clients` map from user id to connected client, modelled as
an association list whose keys are unique. -/
abbrev Registry := List (String × Conn)

/-- Models `client, exists := clients[userID]`. -/
def lookupClient (cs : Registry) (u : String) : Option Conn :=
  (cs.find? (fun e => e.1 == u)).map (·.2)

/-- Models `delete(clients, userID)` (a no-op when the key is absent). -/
def removeClient (cs : Registry) (u : String) : Registry :=
  cs.filter (fun e => !(e.1 == u))

/-- Models `clients[userID] = client`: map assignment, replacing any
existing entry for the same user and touching nothing else. -/
def setClient (cs : Registry) (u : String) (c : Conn) : Registry :=
  if cs.any (fun e => e.1 == u) then
    cs.map (fun e => if e.1 == u then (u, c) else e)
  else
    cs ++ [(u, c)]

/-- State threaded through the dispatch loop: the `clients` map, the
delivery events successfully written so far (recipient, message), and the
ids of connections closed after a failed write. -/
structure SendOut where
  clients : Registry
  delivered : List (String × Message)
  closed : List Nat
deriving DecidableEq, Repr

/-- Go `sendMessageToUser`: look the user up in `clients`; when absent do
nothing; when present attempt one `WriteJSON`, and on failure close the
connection and delete the user from `clients` — no retry, no error
propagated to the producer of the event. -/
def sendMessageToUser (userID : String) (msg : Message) (st : SendOut) : SendOut :=
  match lookupClient st.clients userID with
  | none => st
  | some c =>
    if c.broken then
      { st with clients := removeClient st.clients userID, closed := st.closed ++ [c.connId] }
    else
      { st with delivered := st.delivered ++ [(userID, msg)] }

/-- One iteration of Go `handleMessages`: drain one message from the
`broadcast` channel and push it to the sender's and then the receiver's
registered connection. -/
def handleMessagesStep (msg : Message) (cs : Registry) : SendOut :=
  sendMessageToUser msg.receiver msg (sendMessageToUser msg.sender msg ⟨cs, [], []⟩)

/-- The `messages` table together with the next serial id the
`INSERT ... RETURNING id` will assign. -/
structure Store where
  nextId : Nat
  rows : List Message
deriving DecidableEq, Repr

/-- Result of one `sendMessageHandler` request, with the broadcast already
drained by `handleMessages`. -/
structure SendResult where
  store : Store
  clients : Registry
  delivered : List (String × Message)
  closed : List Nat
  status : Nat
  response : Option Message
deriving DecidableEq, Repr

/-- Go `sendMessageHandler`: bind the request body into a `Message`, run
`INSERT INTO messages (sender, receiver, content, upvotes, downvotes)
VALUES ($1, $2, $3, 0, 0) RETURNING id`, overwrite only `msg.ID` with the
returned id, push `msg` onto `broadcast`, and answer 201 with `msg`.
`insertFails` models the insert returning an error (500, nothing changed,
nothing broadcast). -/
def sendMessageHandler (insertFails : Bool) (req : Message)
    (store : Store) (cs : Registry) : SendResult :=
  if insertFails then
    ⟨store, cs, [], [], 500, none⟩
  else
    let row : Message :=
      { id := toString store.nextId, sender := req.sender, receiver := req.receiver,
        content := req.content, upvotes := 0, downvotes := 0 }
    let store1 : Store := ⟨store.nextId + 1, store.rows ++ [row]⟩
    let msg1 : Message := { req with id := toString store.nextId }
    let out := handleMessagesStep msg1 cs
    ⟨store1, out.clients, out.delivered, out.closed, 201, some msg1⟩

/-- Go `getMessagesHandler` query: all rows whose (sender, receiver) pair
matches either direction, in `timestamp` order (row insertion order). -/
def getMessagesHandler (store : Store) (sender receiver : String) : List Message :=
  store.rows.filter (fun m =>
    (m.sender == sender && m.receiver == receiver) ||
    (m.sender == receiver && m.receiver == sender))

/-- World state seen by `wsHandler`: the `clients` map plus the set of
connection ids on which `Conn.Close()` has been called. -/
structure WsWorld where
  clients : Registry
  closedConns : List Nat
deriving DecidableEq, Repr

/-- The registration step of Go `wsHandler` (lines `client := &Client{...};
clients[userID] = client`): it assigns into the map and does nothing to any
previously registered connection for the same user. -/
def wsHandlerRegister (w : WsWorld) (userID : String) (c : Conn) : WsWorld :=
  { w with clients := setClient w.clients userID c }

/-- The deregistration performed by `wsHandler` when a read fails:
`delete(clients, userID)`. -/
def wsHandlerDeregister (w : WsWorld) (userID : String) : WsWorld :=
  { w with clients := removeClient w.clients userID }

/-- One iteration of the `wsHandler` read loop for an already-registered
connection of user `writerId`: `conn.ReadJSON(&msg)` yields `msg`, and the
handler sends it to the `broadcast` channel, whence `handleMessages`
forwards it to the connections of `msg.Sender` and `msg.Receiver`.  The
message store is not touched and `writerId` is never consulted. -/
def wsHandlerForward (writerId : String) (msg : Message)
    (store : Store) (cs : Registry) : Store × SendOut :=
  let _ := writerId
  (store, handleMessagesStep msg cs)

/-- Vote state of a (user, message) pair as named by the spec. -/
inductive VoteState where
  | NONE
  | UPVOTED
  | DOWNVOTED
deriving DecidableEq, Repr

/-- The vote state the database records for user `u` on message `m`. -/
def voteState (db : DB) (u m : String) : VoteState :=
  match lookupVote db u m with
  | none => .NONE
  | some .upvote => .UPVOTED
  | some .downvote => .DOWNVOTED

/-- Modelled from the spec: the next state of the three-state toggle
machine of section 4.3, as a function of the current state and the
requested vote type. -/
def specNextState : VoteState → VoteType → VoteState
  | .NONE, .upvote => .UPVOTED
  | .NONE, .downvote => .DOWNVOTED
  | .UPVOTED, .upvote => .NONE
  | .UPVOTED, .downvote => .DOWNVOTED
  | .DOWNVOTED, .upvote => .UPVOTED
  | .DOWNVOTED, .downvote => .NONE

/-- Modelled from the spec: the change the toggle machine of section 4.3
applies to the `upvotes` counter. -/
def specUpDelta : VoteState → VoteType → Int
  | .NONE, .upvote => 1
  | .NONE, .downvote => 0
  | .UPVOTED, .upvote => -1
  | .UPVOTED, .downvote => -1
  | .DOWNVOTED, .upvote => 1
  | .DOWNVOTED, .downvote => 0

/-- Modelled from the spec: the change the toggle machine of section 4.3
applies to the `downvotes` counter. -/
def specDownDelta : VoteState → VoteType → Int
  | .NONE, .upvote => 0
  | .NONE, .downvote => 1
  | .UPVOTED, .upvote => 0
  | .UPVOTED, .downvote => 1
  | .DOWNVOTED, .upvote => -1
  | .DOWNVOTED, .downvote => -1

/-- Number of `user_votes` rows for message `m` with the given type. -/
def countVotes (db : DB) (m : String) (t : VoteType) : Nat :=
  db.user_votes.countP (fun v => v.message_id == m && v.vote_type == t)

/-- The users holding a vote record on message `m`. -/
def votersOn (db : DB) (m : String) : List String :=
  (db.user_votes.filter (fun v => v.message_id == m)).map (·.user_id)

/-- The `(user_id, message_id)` key of a vote record. -/
def voteKey (v : VoteRecord) : String × String :=
  (v.user_id, v.message_id)

/-- The unique constraint of the `user_votes` table: at most one record per
(user, message) pair. -/
def voteKeysNodup (db : DB) : Prop :=
  (db.user_votes.map voteKey).Nodup

/-- Primary-key uniqueness of the `messages` table. -/
def msgIdsNodup (db : DB) : Prop :=
  (db.messages.map (·.id)).Nodup

/-- The denormalisation invariant: each message row's counters equal the
number of vote records of the corresponding type for that message. -/
def countersConsistent (db : DB) : Prop :=
  ∀ msg ∈ db.messages, msg.upvotes = (countVotes db msg.id .upvote : Int) ∧
    msg.downvotes = (countVotes db msg.id .downvote : Int)

/-- Well-formed database: unique message ids, unique vote keys, counters
consistent with the vote relation. -/
def WF (db : DB) : Prop :=
  msgIdsNodup db ∧ voteKeysNodup db ∧ countersConsistent db

/-! Helper lemmas about the vote-table operations. -/

theorem find?_map_of_pres {α : Type} (l : List α) (p : α → Bool) (f : α → α)
    (hf : ∀ v, p (f v) = p v) :
    (l.map f).find? p = (l.find? p).map f := by
  induction l with
  | nil => rfl
  | cons h tl ih =>
    by_cases hp : p h = true
    · rw [List.map_cons, List.find?_cons_of_pos _ ((hf h).trans hp),
        List.find?_cons_of_pos _ hp]
      rfl
    · rw [List.map_cons, List.find?_cons_of_neg, List.find?_cons_of_neg _ (by simpa using hp), ih]
      rw [hf h]; simpa using hp

theorem lookupVote_bumpCounters (db : DB) (u m mm : String) (du dd : Int) :
    lookupVote (bumpCounters db mm du dd) u m = lookupVote db u m := rfl

theorem messages_deleteVote (db : DB) (u m : String) :
    (deleteVote db u m).messages = db.messages := rfl

theorem messages_setVoteType (db : DB) (u m : String) (t : VoteType) :
    (setVoteType db u m t).messages = db.messages := rfl

theorem messages_insertVote (db : DB) (u m : String) (t : VoteType) :
    (insertVote db u m t).messages = db.messages := rfl

theorem lookupVote_deleteVote_self (db : DB) (u m : String) :
    lookupVote (deleteVote db u m) u m = none := by
  have hnone : (deleteVote db u m).user_votes.find?
      (fun v => v.user_id == u && v.message_id == m) = none := by
    rw [List.find?_eq_none]
    intro v hv
    have hmem := List.of_mem_filter hv
    rw [Bool.not_eq_true'] at hmem
    simp [hmem]
  simp [lookupVote, hnone]

theorem lookupVote_setVoteType_self (db : DB) (u m : String) (t : VoteType)
    (h : (lookupVote db u m).isSome) :
    lookupVote (setVoteType db u m t) u m = some t := by
  rcases Option.isSome_iff_exists.mp h with ⟨t0, ht0⟩
  unfold lookupVote at ht0 ⊢
  rcases hf : db.user_votes.find? (fun v => v.user_id == u && v.message_id == m) with _ | v0
  · rw [hf] at ht0; simp at ht0
  · have hkey := List.find?_some hf
    have hpres : ∀ v : VoteRecord,
        ((fun v : VoteRecord => v.user_id == u && v.message_id == m)
          (if v.user_id == u && v.message_id == m then { v with vote_type := t } else v))
        = (v.user_id == u && v.message_id == m) := by
      intro v
      by_cases hv : (v.user_id == u && v.message_id == m) = true
      · rw [if_pos hv]
      · rw [if_neg hv]
    rw [setVoteType, find?_map_of_pres _ _ _ hpres, hf]
    simp only [Bool.and_eq_true, beq_iff_eq] at hkey
    simp [hkey]

theorem lookupVote_insertVote_self (db : DB) (u m : String) (t : VoteType)
    (h : lookupVote db u m = none) :
    lookupVote (insertVote db u m t) u m = some t := by
  have hf : db.user_votes.find? (fun v => v.user_id == u && v.message_id == m) = none := by
    unfold lookupVote at h
    rcases hf : db.user_votes.find? (fun v => v.user_id == u && v.message_id == m) with _ | v0
    · exact hf
    · rw [hf] at h; simp at h
  unfold lookupVote insertVote
  rw [List.find?_append, hf]
  simp

theorem findMessage_bumpCounters (db : DB) (mm m' : String) (du dd : Int) :
    findMessage (bumpCounters db mm du dd) m'
      = (findMessage db m').map (fun msg => if msg.id == mm then
          { msg with upvotes := msg.upvotes + du, downvotes := msg.downvotes + dd }
        else msg) := by
  unfold findMessage bumpCounters
  apply find?_map_of_pres
  intro v
  by_cases hv : (v.id == mm) = true
  · rw [if_pos hv]
  · rw [if_neg hv]

theorem findMessage_deleteVote (db : DB) (u m m' : String) :
    findMessage (deleteVote db u m) m' = findMessage db m' := rfl

theorem findMessage_setVoteType (db : DB) (u m m' : String) (t : VoteType) :
    findMessage (setVoteType db u m t) m' = findMessage db m' := rfl

theorem findMessage_insertVote (db : DB) (u m m' : String) (t : VoteType) :
    findMessage (insertVote db u m t) m' = findMessage db m' := rfl

theorem bumpCounters_messages (db : DB) (m : String) (du dd : Int) :
    (bumpCounters db m du dd).messages = db.messages.map (fun msg => if msg.id == m then
      { msg with upvotes := msg.upvotes + du, downvotes := msg.downvotes + dd }
    else msg) := rfl

theorem bumpCounters_bumpCounters (db : DB) (m : String) (du dd du' dd' : Int) :
    bumpCounters (bumpCounters db m du dd) m du' dd'
      = bumpCounters db m (du + du') (dd + dd') := by
  unfold bumpCounters
  simp only [List.map_map]
  congr 1
  apply List.map_congr_left
  intro msg _
  by_cases hv : (msg.id == m) = true
  · simp [Function.comp, hv, add_assoc]
  · simp [Function.comp, hv]

theorem bumpCounters_zero (db : DB) (m : String) :
    bumpCounters db m 0 0 = db := by
  unfold bumpCounters
  cases db with
  | mk msgs votes =>
    simp only [DB.mk.injEq, and_true]
    rw [List.map_congr_left (g := id), List.map_id]
    intro msg _
    by_cases hv : (msg.id == m) = true
    · simp [hv]
    · simp [hv]

/-- Evaluation of an upvote request by a user with no existing vote. -/
theorem castVoteDB_up_of_none (u m : String) (db : DB)
    (hm : (findMessage db m).isSome) (hlv : lookupVote db u m = none) :
    castVoteDB .upvote u m db = bumpCounters (insertVote db u m .upvote) m 1 0 := by
  rcases Option.isSome_iff_exists.mp hm with ⟨msgRow, hm'⟩
  simp [castVoteDB, castVote, upvoteMessageHandler, Env.ok, hm', hlv]

/-- Evaluation of an upvote request by a user whose existing vote is an
upvote. -/
theorem castVoteDB_up_of_up (u m : String) (db : DB)
    (hm : (findMessage db m).isSome) (hlv : lookupVote db u m = some .upvote) :
    castVoteDB .upvote u m db = bumpCounters (deleteVote db u m) m (-1) 0 := by
  rcases Option.isSome_iff_exists.mp hm with ⟨msgRow, hm'⟩
  simp [castVoteDB, castVote, upvoteMessageHandler, Env.ok, hm', hlv]

/-- Evaluation of an upvote request by a user whose existing vote is a
downvote. -/
theorem castVoteDB_up_of_down (u m : String) (db : DB)
    (hm : (findMessage db m).isSome) (hlv : lookupVote db u m = some .downvote) :
    castVoteDB .upvote u m db = bumpCounters (setVoteType db u m .upvote) m 1 (-1) := by
  rcases Option.isSome_iff_exists.mp hm with ⟨msgRow, hm'⟩
  simp [castVoteDB, castVote, upvoteMessageHandler, Env.ok, hm', hlv]

/-- Evaluation of a downvote request by a user with no existing vote. -/
theorem castVoteDB_down_of_none (u m : String) (db : DB)
    (hm : (findMessage db m).isSome) (hlv : lookupVote db u m = none) :
    castVoteDB .downvote u m db = bumpCounters (insertVote db u m .downvote) m 0 1 := by
  rcases Option.isSome_iff_exists.mp hm with ⟨msgRow, hm'⟩
  simp [castVoteDB, castVote, downvoteMessageHandler, Env.ok, hm', hlv]

/-- Evaluation of a downvote request by a user whose existing vote is a
downvote. -/
theorem castVoteDB_down_of_down (u m : String) (db : DB)
    (hm : (findMessage db m).isSome) (hlv : lookupVote db u m = some .downvote) :
    castVoteDB .downvote u m db = bumpCounters (deleteVote db u m) m 0 (-1) := by
  rcases Option.isSome_iff_exists.mp hm with ⟨msgRow, hm'⟩
  simp [castVoteDB, castVote, downvoteMessageHandler, Env.ok, hm', hlv]

/-- Evaluation of a downvote request by a user whose existing vote is an
upvote. -/
theorem castVoteDB_down_of_up (u m : String) (db : DB)
    (hm : (findMessage db m).isSome) (hlv : lookupVote db u m = some .upvote) :
    castVoteDB .downvote u m db = bumpCounters (setVoteType db u m .downvote) m (-1) 1 := by
  rcases Option.isSome_iff_exists.mp hm with ⟨msgRow, hm'⟩
  simp [castVoteDB, castVote, downvoteMessageHandler, Env.ok, hm', hlv]

/-- When the message exists and the infrastructure is healthy, the vote
handlers answer 200. -/
theorem castVote_status_of_found (t : VoteType) (u m : String) (db : DB) (cache : Cache)
    (hm : (findMessage db m).isSome) :
    (castVote t u m Env.ok db cache).status = 200 := by
  rcases Option.isSome_iff_exists.mp hm with ⟨msgRow, hm'⟩
  cases t <;>
    rcases hlv : lookupVote db u m with _ | (_ | _) <;>
    simp [castVote, upvoteMessageHandler, downvoteMessageHandler, Env.ok, hm', hlv]

/-- C1: for every user, message and requested vote type, `castVote` follows
the three-state toggle machine over {NONE, UPVOTED, DOWNVOTED}: the next
vote state is `specNextState`, the message's counters change by exactly
`specUpDelta`/`specDownDelta`, and no other field of the message (and no
other message row) changes. -/
theorem castVote_follows_toggle_machine (t : VoteType) (u m : String) (db : DB)
    (cache : Cache) (msgRow : Message) (hm : findMessage db m = some msgRow) :
    (castVote t u m Env.ok db cache).status = 200 ∧
    voteState (castVote t u m Env.ok db cache).db u m
      = specNextState (voteState db u m) t ∧
    (castVote t u m Env.ok db cache).db.messages
      = db.messages.map (fun msg => if msg.id == m then
          { msg with upvotes := msg.upvotes + specUpDelta (voteState db u m) t,
                     downvotes := msg.downvotes + specDownDelta (voteState db u m) t }
        else msg) := by
  cases t with
  | upvote =>
    rcases hlv : lookupVote db u m with _ | (_ | _)
    · have hvs : voteState db u m = .NONE := by simp [voteState, hlv]
      have h2 := lookupVote_insertVote_self db u m .upvote hlv
      refine ⟨?_, ?_, ?_⟩
      · simp [castVote, upvoteMessageHandler, Env.ok, hm, hlv]
      · simp only [castVote, upvoteMessageHandler, Env.ok, hm, hlv, Bool.false_eq_true,
          if_false, hvs, specNextState]
        simp [voteState, lookupVote_bumpCounters, h2]
      · simp only [castVote, upvoteMessageHandler, Env.ok, hm, hlv, Bool.false_eq_true,
          if_false, hvs, specUpDelta, specDownDelta]
        simp [bumpCounters, insertVote]
    · have hvs : voteState db u m = .UPVOTED := by simp [voteState, hlv]
      refine ⟨?_, ?_, ?_⟩
      · simp [castVote, upvoteMessageHandler, Env.ok, hm, hlv]
      · simp only [castVote, upvoteMessageHandler, Env.ok, hm, hlv, Bool.false_eq_true,
          if_false, hvs, specNextState]
        simp [voteState, lookupVote_bumpCounters, lookupVote_deleteVote_self]
      · simp only [castVote, upvoteMessageHandler, Env.ok, hm, hlv, Bool.false_eq_true,
          if_false, hvs, specUpDelta, specDownDelta]
        simp [bumpCounters, deleteVote]
    · have hvs : voteState db u m = .DOWNVOTED := by simp [voteState, hlv]
      have h2 := lookupVote_setVoteType_self db u m .upvote (by rw [hlv]; rfl)
      refine ⟨?_, ?_, ?_⟩
      · simp [castVote, upvoteMessageHandler, Env.ok, hm, hlv]
      · simp only [castVote, upvoteMessageHandler, Env.ok, hm, hlv, Bool.false_eq_true,
          if_false, hvs, specNextState]
        simp [voteState, lookupVote_bumpCounters, h2]
      · simp only [castVote, upvoteMessageHandler, Env.ok, hm, hlv, Bool.false_eq_true,
          if_false, hvs, specUpDelta, specDownDelta]
        simp [bumpCounters, setVoteType]
  | downvote =>
    rcases hlv : lookupVote db u m with _ | (_ | _)
    · have hvs : voteState db u m = .NONE := by simp [voteState, hlv]
      have h2 := lookupVote_insertVote_self db u m .downvote hlv
      refine ⟨?_, ?_, ?_⟩
      · simp [castVote, downvoteMessageHandler, Env.ok, hm, hlv]
      · simp only [castVote, downvoteMessageHandler, Env.ok, hm, hlv, Bool.false_eq_true,
          if_false, hvs, specNextState]
        simp [voteState, lookupVote_bumpCounters, h2]
      · simp only [castVote, downvoteMessageHandler, Env.ok, hm, hlv, Bool.false_eq_true,
          if_false, hvs, specUpDelta, specDownDelta]
        simp [bumpCounters, insertVote]
    · have hvs : voteState db u m = .UPVOTED := by simp [voteState, hlv]
      have h2 := lookupVote_setVoteType_self db u m .downvote (by rw [hlv]; rfl)
      refine ⟨?_, ?_, ?_⟩
      · simp [castVote, downvoteMessageHandler, Env.ok, hm, hlv]
      · simp only [castVote, downvoteMessageHandler, Env.ok, hm, hlv, Bool.false_eq_true,
          if_false, hvs, specNextState]
        simp [voteState, lookupVote_bumpCounters, h2]
      · simp only [castVote, downvoteMessageHandler, Env.ok, hm, hlv, Bool.false_eq_true,
          if_false, hvs, specUpDelta, specDownDelta]
        simp [bumpCounters, setVoteType]
    · have hvs : voteState db u m = .DOWNVOTED := by simp [voteState, hlv]
      refine ⟨?_, ?_, ?_⟩
      · simp [castVote, downvoteMessageHandler, Env.ok, hm, hlv]
      · simp only [castVote, downvoteMessageHandler, Env.ok, hm, hlv, Bool.false_eq_true,
          if_false, hvs, specNextState]
        simp [voteState, lookupVote_bumpCounters, lookupVote_deleteVote_self]
      · simp only [castVote, downvoteMessageHandler, Env.ok, hm, hlv, Bool.false_eq_true,
          if_false, hvs, specUpDelta, specDownDelta]
        simp [bumpCounters, deleteVote]

theorem findMessage_isSome_bumpCounters (db : DB) (mm m' : String) (du dd : Int)
    (h : (findMessage db m').isSome) :
    (findMessage (bumpCounters db mm du dd) m').isSome := by
  rw [findMessage_bumpCounters]
  rcases Option.isSome_iff_exists.mp h with ⟨msgRow, hm'⟩
  rw [hm']
  rfl

/-- Witness for `castVote_follows_toggle_machine` at a concrete database. -/
theorem castVote_follows_toggle_machine_witness :
    findMessage ⟨[⟨"m1", "a", "b", "hi", 0, 0⟩], []⟩ "m1" = some ⟨"m1", "a", "b", "hi", 0, 0⟩ ∧
    (castVote .upvote "alice" "m1" Env.ok ⟨[⟨"m1", "a", "b", "hi", 0, 0⟩], []⟩ []).status = 200 :=
  ⟨by decide,
    (castVote_follows_toggle_machine .upvote "alice" "m1" ⟨[⟨"m1", "a", "b", "hi", 0, 0⟩], []⟩
      [] ⟨"m1", "a", "b", "hi", 0, 0⟩ (by decide)).1⟩

theorem countVotes_bumpCounters (db : DB) (mm : String) (du dd : Int) (m' : String)
    (t' : VoteType) :
    countVotes (bumpCounters db mm du dd) m' t' = countVotes db m' t' := rfl

theorem countVotes_insertVote (db : DB) (u m : String) (t : VoteType) (m' : String)
    (t' : VoteType) :
    countVotes (insertVote db u m t) m' t'
      = countVotes db m' t' + (if m = m' ∧ t = t' then 1 else 0) := by
  unfold countVotes insertVote
  rw [List.countP_append]
  by_cases h : m = m' ∧ t = t'
  · simp [List.countP_cons, h.1, h.2, if_pos h]
  · rw [if_neg h]
    have hx : ((⟨u, m, t⟩ : VoteRecord).message_id == m'
        && (⟨u, m, t⟩ : VoteRecord).vote_type == t') = false := by
      rw [not_and_or] at h
      rcases h with h1 | h2
      · simp [beq_eq_false_iff_ne, h1]
      · simp [beq_eq_false_iff_ne, h2]
    simp [List.countP_cons, hx]

theorem find?_cons_pos {α : Type} (p : α → Bool) (a : α) (l : List α) (h : p a = true) :
    (a :: l).find? p = some a :=
  List.find?_cons_of_pos l h

theorem find?_cons_neg {α : Type} (p : α → Bool) (a : α) (l : List α) (h : p a = false) :
    (a :: l).find? p = l.find? p :=
  List.find?_cons_of_neg l (by simp [h])

theorem filter_cons_pos {α : Type} (p : α → Bool) (a : α) (l : List α) (h : p a = true) :
    (a :: l).filter p = a :: l.filter p := by
  simp [List.filter_cons, h]

theorem filter_cons_neg {α : Type} (p : α → Bool) (a : α) (l : List α) (h : p a = false) :
    (a :: l).filter p = l.filter p := by
  simp [List.filter_cons, h]

theorem tail_filter_key_eq_self (h : VoteRecord) (tl : List VoteRecord) (u m : String)
    (hnotin : voteKey h ∉ tl.map voteKey)
    (kh : (h.user_id == u && h.message_id == m) = true) :
    tl.filter (fun v => !(v.user_id == u && v.message_id == m)) = tl := by
  rw [List.filter_eq_self]
  intro v hv
  rw [Bool.not_eq_true']
  by_contra hc
  rw [Bool.not_eq_false] at hc
  simp only [Bool.and_eq_true, beq_iff_eq] at hc kh
  exact hnotin (List.mem_map.mpr ⟨v, hv, by simp [voteKey, hc.1, hc.2, kh.1, kh.2]⟩)

theorem countP_filter_not_key (l : List VoteRecord) (u m : String) (v0 : VoteRecord)
    (hnd : (l.map voteKey).Nodup)
    (hf : l.find? (fun v => v.user_id == u && v.message_id == m) = some v0)
    (p : VoteRecord → Bool) :
    (l.filter (fun v => !(v.user_id == u && v.message_id == m))).countP p
      + (if p v0 then 1 else 0) = l.countP p := by
  induction l with
  | nil => simp at hf
  | cons h tl ih =>
    rw [List.map_cons, List.nodup_cons] at hnd
    by_cases kh : (h.user_id == u && h.message_id == m) = true
    · rw [find?_cons_pos (fun v => v.user_id == u && v.message_id == m) h tl kh,
        Option.some.injEq] at hf
      rw [filter_cons_neg (fun v => !(v.user_id == u && v.message_id == m)) h tl
            (by rw [Bool.not_eq_false']; exact kh),
        tail_filter_key_eq_self h tl u m hnd.1 kh, List.countP_cons, hf]
    · have hkf : (h.user_id == u && h.message_id == m) = false :=
        Bool.eq_false_iff.mpr kh
      have hftl : tl.find? (fun v => v.user_id == u && v.message_id == m) = some v0 := by
        rwa [find?_cons_neg (fun v => v.user_id == u && v.message_id == m) h tl hkf] at hf
      rw [filter_cons_pos (fun v => !(v.user_id == u && v.message_id == m)) h tl
            (by rw [Bool.not_eq_true', hkf]),
        List.countP_cons, List.countP_cons, ← ih hnd.2 hftl]
      omega

theorem countP_map_retype (l : List VoteRecord) (u m : String) (t : VoteType)
    (v0 : VoteRecord)
    (hnd : (l.map voteKey).Nodup)
    (hf : l.find? (fun v => v.user_id == u && v.message_id == m) = some v0)
    (p : VoteRecord → Bool) :
    ((l.map (fun v => if v.user_id == u && v.message_id == m
        then { v with vote_type := t } else v)).countP p)
      + (if p v0 then 1 else 0)
      = l.countP p + (if p { v0 with vote_type := t } then 1 else 0) := by
  induction l with
  | nil => simp at hf
  | cons h tl ih =>
    rw [List.map_cons, List.nodup_cons] at hnd
    by_cases kh : (h.user_id == u && h.message_id == m) = true
    · rw [find?_cons_pos (fun v => v.user_id == u && v.message_id == m) h tl kh,
        Option.some.injEq] at hf
      have htl : tl.map (fun v => if v.user_id == u && v.message_id == m
          then { v with vote_type := t } else v) = tl := by
        have hfe := tail_filter_key_eq_self h tl u m hnd.1 kh
        rw [List.filter_eq_self] at hfe
        rw [List.map_congr_left (g := id), List.map_id]
        intro v hv
        have hv' := hfe v hv
        rw [Bool.not_eq_true'] at hv'
        simp [hv']
      rw [List.map_cons, htl]
      rw [if_pos kh, List.countP_cons, List.countP_cons, hf]
      omega
    · have hkf : (h.user_id == u && h.message_id == m) = false :=
        Bool.eq_false_iff.mpr kh
      have hftl : tl.find? (fun v => v.user_id == u && v.message_id == m) = some v0 := by
        rwa [find?_cons_neg (fun v => v.user_id == u && v.message_id == m) h tl hkf] at hf
      rw [List.map_cons]
      rw [if_neg kh, List.countP_cons, List.countP_cons]
      have hih := ih hnd.2 hftl
      omega

theorem msgIds_bumpCounters (db : DB) (m : String) (du dd : Int) :
    (bumpCounters db m du dd).messages.map (·.id) = db.messages.map (·.id) := by
  unfold bumpCounters
  rw [List.map_map]
  apply List.map_congr_left
  intro msg _
  by_cases hv : (msg.id == m) = true
  · simp [Function.comp, hv]
  · simp [Function.comp, hv]

theorem voteKeys_setVoteType (db : DB) (u m : String) (t : VoteType) :
    (setVoteType db u m t).user_votes.map voteKey = db.user_votes.map voteKey := by
  unfold setVoteType
  rw [List.map_map]
  apply List.map_congr_left
  intro v _
  by_cases hv : (v.user_id == u && v.message_id == m) = true
  · simp [Function.comp, voteKey, hv]
  · simp [Function.comp, hv]

theorem lookupVote_none_key_not_mem (db : DB) (u m : String)
    (hlv : lookupVote db u m = none) :
    (u, m) ∉ db.user_votes.map voteKey := by
  intro hmem
  rcases List.mem_map.mp hmem with ⟨v, hv, hkey⟩
  have hfind : db.user_votes.find? (fun v => v.user_id == u && v.message_id == m) = none := by
    unfold lookupVote at hlv
    exact Option.map_eq_none'.mp hlv
  have hnot := List.find?_eq_none.mp hfind v hv
  unfold voteKey at hkey
  have h1 : v.user_id = u := congrArg Prod.fst hkey
  have h2 : v.message_id = m := congrArg Prod.snd hkey
  exact hnot (by simp [h1, h2])

theorem voteKeysNodup_insertVote (db : DB) (u m : String) (t : VoteType)
    (hnd : voteKeysNodup db) (hlv : lookupVote db u m = none) :
    voteKeysNodup (insertVote db u m t) := by
  unfold voteKeysNodup at hnd ⊢
  unfold insertVote
  rw [List.map_append]
  rw [List.nodup_append]
  refine ⟨hnd, List.nodup_singleton _, ?_⟩
  intro k hk hk'
  have : k = (u, m) := by simpa [voteKey] using hk'
  subst this
  exact lookupVote_none_key_not_mem db u m hlv hk

theorem voteKeysNodup_deleteVote (db : DB) (u m : String)
    (hnd : voteKeysNodup db) :
    voteKeysNodup (deleteVote db u m) := by
  unfold voteKeysNodup at hnd ⊢
  unfold deleteVote
  exact hnd.sublist (List.Sublist.map voteKey (List.filter_sublist _))

theorem voteKeysNodup_setVoteType (db : DB) (u m : String) (t : VoteType)
    (hnd : voteKeysNodup db) :
    voteKeysNodup (setVoteType db u m t) := by
  unfold voteKeysNodup at hnd ⊢
  rw [voteKeys_setVoteType]
  exact hnd

theorem countersConsistent_insert (db : DB) (u m : String) (t : VoteType)
    (hcc : countersConsistent db) :
    countersConsistent (bumpCounters (insertVote db u m t) m
      (if t = .upvote then 1 else 0) (if t = .downvote then 1 else 0)) := by
  intro msg' hmsg'
  rw [bumpCounters_messages, messages_insertVote] at hmsg'
  rcases List.mem_map.mp hmsg' with ⟨msg, hmsg, rfl⟩
  obtain ⟨h1, h2⟩ := hcc msg hmsg
  by_cases hid : (msg.id == m) = true
  · have hid' : msg.id = m := by simpa using hid
    rw [if_pos hid]
    cases t <;>
      constructor <;>
      simp only [countVotes_bumpCounters, countVotes_insertVote, hid'] <;>
      simp [h1, h2, hid']
  · have hid' : ¬ msg.id = m := by simpa using hid
    rw [if_neg hid]
    constructor <;>
      simp only [countVotes_bumpCounters, countVotes_insertVote] <;>
      rw [if_neg (by intro hc; exact hid' hc.1.symm)] <;>
      simp [h1, h2]

theorem lookupVote_some_elim (db : DB) (u m : String) (t0 : VoteType)
    (hlv : lookupVote db u m = some t0) :
    ∃ v0, db.user_votes.find? (fun v => v.user_id == u && v.message_id == m) = some v0 ∧
      v0.user_id = u ∧ v0.message_id = m ∧ v0.vote_type = t0 := by
  unfold lookupVote at hlv
  rcases hf : db.user_votes.find? (fun v => v.user_id == u && v.message_id == m) with _ | v0
  · rw [hf] at hlv; simp at hlv
  · rw [hf] at hlv
    have hkey := List.find?_some hf
    simp only [Bool.and_eq_true, beq_iff_eq] at hkey
    simp only [Option.map_some'] at hlv
    exact ⟨v0, hf, hkey.1, hkey.2, by injection hlv⟩

theorem countersConsistent_delete (db : DB) (u m : String) (t0 : VoteType)
    (hcc : countersConsistent db) (hnd : voteKeysNodup db)
    (hlv : lookupVote db u m = some t0) :
    countersConsistent (bumpCounters (deleteVote db u m) m
      (if t0 = .upvote then -1 else 0) (if t0 = .downvote then -1 else 0)) := by
  rcases lookupVote_some_elim db u m t0 hlv with ⟨v0, hf, hvu, hvm, hvt⟩
  intro msg' hmsg'
  rw [bumpCounters_messages, messages_deleteVote] at hmsg'
  rcases List.mem_map.mp hmsg' with ⟨msg, hmsg, rfl⟩
  obtain ⟨h1, h2⟩ := hcc msg hmsg
  have hcnt : ∀ t' : VoteType, countVotes (deleteVote db u m) msg.id t'
      + (if (v0.message_id == msg.id && v0.vote_type == t') then 1 else 0)
      = countVotes db msg.id t' := by
    intro t'
    exact countP_filter_not_key db.user_votes u m v0 hnd hf _
  have hup := hcnt .upvote
  have hdn := hcnt .downvote
  by_cases hid : (msg.id == m) = true
  · have hid' : msg.id = m := by simpa using hid
    rw [if_pos hid]
    rw [hvm, hid'] at hup hdn
    rw [hid'] at h1 h2
    cases t0 <;>
      simp [hvt] at hup hdn <;>
      constructor <;>
      simp [countVotes_bumpCounters, hid', h1, h2] <;>
      try omega
  · have hid' : ¬ msg.id = m := by simpa using hid
    rw [if_neg hid]
    have hvf : (v0.message_id == msg.id) = false := by
      rw [hvm]
      exact beq_eq_false_iff_ne.mpr (fun hc => hid' hc.symm)
    rw [hvf] at hup hdn
    simp at hup hdn
    constructor <;>
      simp only [countVotes_bumpCounters, hup, hdn] <;>
      try omega

theorem countersConsistent_retype (db : DB) (u m : String) (t t0 : VoteType)
    (hcc : countersConsistent db) (hnd : voteKeysNodup db)
    (hlv : lookupVote db u m = some t0) (hne : ¬ t = t0) :
    countersConsistent (bumpCounters (setVoteType db u m t) m
      (if t = .upvote then 1 else -1) (if t = .downvote then 1 else -1)) := by
  rcases lookupVote_some_elim db u m t0 hlv with ⟨v0, hf, hvu, hvm, hvt⟩
  intro msg' hmsg'
  rw [bumpCounters_messages, messages_setVoteType] at hmsg'
  rcases List.mem_map.mp hmsg' with ⟨msg, hmsg, rfl⟩
  obtain ⟨h1, h2⟩ := hcc msg hmsg
  have hcnt : ∀ t' : VoteType, countVotes (setVoteType db u m t) msg.id t'
      + (if (v0.message_id == msg.id && v0.vote_type == t') then 1 else 0)
      = countVotes db msg.id t'
        + (if (v0.message_id == msg.id && (t == t')) then 1 else 0) := by
    intro t'
    have := countP_map_retype db.user_votes u m t v0 hnd hf
      (fun v => v.message_id == msg.id && v.vote_type == t')
    exact this
  have hup := hcnt .upvote
  have hdn := hcnt .downvote
  by_cases hid : (msg.id == m) = true
  · have hid' : msg.id = m := by simpa using hid
    rw [if_pos hid]
    rw [hvm, hid'] at hup hdn
    rw [hid'] at h1 h2
    cases t <;> cases t0 <;> try exact absurd rfl hne
    all_goals (
      simp [hvt] at hup hdn
      constructor <;>
        simp [countVotes_bumpCounters, hid', h1, h2] <;>
        try omega)
  · have hid' : ¬ msg.id = m := by simpa using hid
    rw [if_neg hid]
    have hvf : (v0.message_id == msg.id) = false := by
      rw [hvm]
      exact beq_eq_false_iff_ne.mpr (fun hc => hid' hc.symm)
    rw [hvf] at hup hdn
    simp at hup hdn
    constructor <;>
      simp only [countVotes_bumpCounters, hup, hdn] <;>
      try omega

theorem castVoteDB_of_notFound (t : VoteType) (u m : String) (db : DB)
    (hm : findMessage db m = none) :
    castVoteDB t u m db = db := by
  cases t <;>
    simp [castVoteDB, castVote, upvoteMessageHandler, downvoteMessageHandler, Env.ok, hm]

theorem WF_castVoteDB (t : VoteType) (u m : String) (db : DB) (h : WF db) :
    WF (castVoteDB t u m db) := by
  obtain ⟨hids, hnd, hcc⟩ := h
  rcases hm : findMessage db m with _ | msgRow
  · rw [castVoteDB_of_notFound t u m db hm]
    exact ⟨hids, hnd, hcc⟩
  · have hm' : (findMessage db m).isSome := by rw [hm]; rfl
    cases t with
    | upvote =>
      rcases hlv : lookupVote db u m with _ | (_ | _)
      · rw [castVoteDB_up_of_none u m db hm' hlv]
        refine ⟨?_, ?_, ?_⟩
        · unfold msgIdsNodup at hids ⊢
          rw [msgIds_bumpCounters, messages_insertVote]
          exact hids
        · exact voteKeysNodup_insertVote db u m .upvote hnd hlv
        · exact countersConsistent_insert db u m .upvote hcc
      · rw [castVoteDB_up_of_up u m db hm' hlv]
        refine ⟨?_, ?_, ?_⟩
        · unfold msgIdsNodup at hids ⊢
          rw [msgIds_bumpCounters, messages_deleteVote]
          exact hids
        · exact voteKeysNodup_deleteVote db u m hnd
        · exact countersConsistent_delete db u m .upvote hcc hnd hlv
      · rw [castVoteDB_up_of_down u m db hm' hlv]
        refine ⟨?_, ?_, ?_⟩
        · unfold msgIdsNodup at hids ⊢
          rw [msgIds_bumpCounters, messages_setVoteType]
          exact hids
        · exact voteKeysNodup_setVoteType db u m .upvote hnd
        · exact countersConsistent_retype db u m .upvote .downvote hcc hnd hlv (by decide)
    | downvote =>
      rcases hlv : lookupVote db u m with _ | (_ | _)
      · rw [castVoteDB_down_of_none u m db hm' hlv]
        refine ⟨?_, ?_, ?_⟩
        · unfold msgIdsNodup at hids ⊢
          rw [msgIds_bumpCounters, messages_insertVote]
          exact hids
        · exact voteKeysNodup_insertVote db u m .downvote hnd hlv
        · exact countersConsistent_insert db u m .downvote hcc
      · rw [castVoteDB_down_of_up u m db hm' hlv]
        refine ⟨?_, ?_, ?_⟩
        · unfold msgIdsNodup at hids ⊢
          rw [msgIds_bumpCounters, messages_setVoteType]
          exact hids
        · exact voteKeysNodup_setVoteType db u m .downvote hnd
        · exact countersConsistent_retype db u m .downvote .upvote hcc hnd hlv (by decide)
      · rw [castVoteDB_down_of_down u m db hm' hlv]
        refine ⟨?_, ?_, ?_⟩
        · unfold msgIdsNodup at hids ⊢
          rw [msgIds_bumpCounters, messages_deleteVote]
          exact hids
        · exact voteKeysNodup_deleteVote db u m hnd
        · exact countersConsistent_delete db u m .downvote hcc hnd hlv

/-- A sequence of completed `castVote` operations, applied oldest first:
each element gives the requested type, the user and the message id. -/
def applyVotes (ops : List (VoteType × String × String)) (db : DB) : DB :=
  ops.foldl (fun d op => castVoteDB op.1 op.2.1 op.2.2 d) db

theorem WF_applyVotes (ops : List (VoteType × String × String)) (db : DB) (h : WF db) :
    WF (applyVotes ops db) := by
  induction ops generalizing db with
  | nil => exact h
  | cons op tl ih => exact ih _ (WF_castVoteDB op.1 op.2.1 op.2.2 db h)

theorem length_filter_msg (l : List VoteRecord) (m : String) :
    (l.filter (fun v => v.message_id == m)).length
      = l.countP (fun v => v.message_id == m && v.vote_type == VoteType.upvote)
        + l.countP (fun v => v.message_id == m && v.vote_type == VoteType.downvote) := by
  induction l with
  | nil => rfl
  | cons h tl ih =>
    rw [List.countP_cons, List.countP_cons, List.filter_cons]
    cases ht : h.vote_type <;> by_cases hm : (h.message_id == m) = true <;>
      simp [hm, ht, ih] <;> omega

theorem votersOn_length_eq (db : DB) (m : String) :
    (votersOn db m).length = countVotes db m .upvote + countVotes db m .downvote := by
  unfold votersOn countVotes
  rw [List.length_map]
  exact length_filter_msg db.user_votes m

theorem votersOn_nodup_aux (m : String) :
    ∀ l : List VoteRecord, (l.map voteKey).Nodup →
      ((l.filter (fun v => v.message_id == m)).map (·.user_id)).Nodup := by
  intro l
  induction l with
  | nil =>
    intro _
    exact List.nodup_nil
  | cons h tl ih =>
    intro hnd
    rw [List.map_cons, List.nodup_cons] at hnd
    rw [List.filter_cons]
    by_cases hm : (h.message_id == m) = true
    · rw [if_pos hm, List.map_cons, List.nodup_cons]
      refine ⟨?_, ih hnd.2⟩
      intro hmem
      rcases List.mem_map.mp hmem with ⟨w, hw, hwu⟩
      have hwm := List.of_mem_filter hw
      have hwmem : w ∈ tl := List.mem_of_mem_filter hw
      apply hnd.1
      refine List.mem_map.mpr ⟨w, hwmem, ?_⟩
      unfold voteKey
      simp only [beq_iff_eq] at hm hwm
      rw [hwu, hwm, hm]
    · rw [if_neg hm]
      exact ih hnd.2

theorem votersOn_nodup (db : DB) (m : String) (hnd : voteKeysNodup db) :
    (votersOn db m).Nodup :=
  votersOn_nodup_aux m db.user_votes hnd

theorem mem_votersOn_iff_exists (db : DB) (u m : String) :
    u ∈ votersOn db m ↔ ∃ v ∈ db.user_votes, v.user_id = u ∧ v.message_id = m := by
  unfold votersOn
  rw [List.mem_map]
  constructor
  · rintro ⟨v, hv, rfl⟩
    exact ⟨v, List.mem_of_mem_filter hv, rfl, by simpa using List.of_mem_filter hv⟩
  · rintro ⟨v, hv, rfl, hvm⟩
    exact ⟨v, List.mem_filter.mpr ⟨hv, by simp [hvm]⟩, rfl⟩

theorem voteState_eq_NONE_iff (db : DB) (u m : String) :
    voteState db u m = .NONE ↔ lookupVote db u m = none := by
  unfold voteState
  rcases lookupVote db u m with _ | (_ | _) <;> simp

theorem lookupVote_ne_none_iff (db : DB) (u m : String) :
    ¬ lookupVote db u m = none ↔ ∃ v ∈ db.user_votes, v.user_id = u ∧ v.message_id = m := by
  unfold lookupVote
  rw [Option.map_eq_none', List.find?_eq_none]
  push_neg
  constructor
  · rintro ⟨v, hv, hp⟩
    simp only [Bool.and_eq_true, beq_iff_eq] at hp
    exact ⟨v, hv, hp⟩
  · rintro ⟨v, hv, h1, h2⟩
    exact ⟨v, hv, by simp [h1, h2]⟩

/-- C2: after any sequence of completed `castVote` operations applied to a
well-formed database, every message row's `upvotes` equals the number of
upvote vote records for it and `downvotes` the number of downvote records,
each (user, message) pair has at most one vote record, both counters stay
non-negative, and `upvotes + downvotes` equals the number of distinct users
with a non-NONE vote state on the message. -/
theorem castVote_counters_match_vote_records (ops : List (VoteType × String × String))
    (db : DB) (h : WF db) :
    ((applyVotes ops db).user_votes.map voteKey).Nodup ∧
    ∀ msg ∈ (applyVotes ops db).messages,
      msg.upvotes = (countVotes (applyVotes ops db) msg.id .upvote : Int) ∧
      msg.downvotes = (countVotes (applyVotes ops db) msg.id .downvote : Int) ∧
      0 ≤ msg.upvotes ∧ 0 ≤ msg.downvotes ∧
      (votersOn (applyVotes ops db) msg.id).Nodup ∧
      (∀ u, u ∈ votersOn (applyVotes ops db) msg.id ↔
        voteState (applyVotes ops db) u msg.id ≠ .NONE) ∧
      msg.upvotes + msg.downvotes
        = ((votersOn (applyVotes ops db) msg.id).length : Int) := by
  obtain ⟨hids, hnd, hcc⟩ := WF_applyVotes ops db h
  refine ⟨hnd, ?_⟩
  intro msg hmsg
  obtain ⟨h1, h2⟩ := hcc msg hmsg
  refine ⟨h1, h2, ?_, ?_, votersOn_nodup _ _ hnd, ?_, ?_⟩
  · rw [h1]
    exact Int.natCast_nonneg _
  · rw [h2]
    exact Int.natCast_nonneg _
  · intro u
    rw [mem_votersOn_iff_exists, ← lookupVote_ne_none_iff, ← voteState_eq_NONE_iff]
  · rw [h1, h2, votersOn_length_eq]
    push_cast
    ring

/-- Witness for `castVote_counters_match_vote_records`: a fresh message,
an upvote by alice and a downvote by bob. -/
theorem castVote_counters_match_vote_records_witness :
    WF ⟨[⟨"m1", "a", "b", "hi", 0, 0⟩], []⟩ ∧
    ∀ msg ∈ (applyVotes [(.upvote, "alice", "m1"), (.downvote, "bob", "m1")]
        ⟨[⟨"m1", "a", "b", "hi", 0, 0⟩], []⟩).messages,
      msg.upvotes + msg.downvotes
        = ((votersOn (applyVotes [(.upvote, "alice", "m1"), (.downvote, "bob", "m1")]
            ⟨[⟨"m1", "a", "b", "hi", 0, 0⟩], []⟩) msg.id).length : Int) := by
  have hWF : WF ⟨[⟨"m1", "a", "b", "hi", 0, 0⟩], []⟩ := by
    unfold WF msgIdsNodup voteKeysNodup countersConsistent countVotes
    decide
  exact ⟨hWF, fun msg hm =>
    ((castVote_counters_match_vote_records [(.upvote, "alice", "m1"), (.downvote, "bob", "m1")]
      ⟨[⟨"m1", "a", "b", "hi", 0, 0⟩], []⟩ hWF).2 msg hm).2.2.2.2.2.2⟩

theorem lookupVote_insertVote_other (db : DB) (u m u' m' : String) (t : VoteType)
    (hne : ¬ (u' = u ∧ m' = m)) :
    lookupVote (insertVote db u m t) u' m' = lookupVote db u' m' := by
  unfold lookupVote insertVote
  rw [List.find?_append]
  have hx : ((⟨u, m, t⟩ : VoteRecord).user_id == u'
      && (⟨u, m, t⟩ : VoteRecord).message_id == m') = false := by
    by_cases hq : u = u' ∧ m = m'
    · exact absurd ⟨hq.1.symm, hq.2.symm⟩ hne
    · rcases not_and_or.mp hq with h1 | h2
      · have hb : (u == u') = false := beq_eq_false_iff_ne.mpr h1
        simp [hb]
      · have hb : (m == m') = false := beq_eq_false_iff_ne.mpr h2
        simp [hb]
  rcases hf : db.user_votes.find? (fun v => v.user_id == u' && v.message_id == m') with _ | v
  · simp [List.find?, hx]
  · rw [hf]
    rfl

/-- One `upvoteMessageHandler` request per listed user on the same message,
applied in list order; returns the final database and the HTTP status of
each request. -/
def castFreshUpvotes : List String → String → DB → DB × List Nat
  | [], _, db => (db, [])
  | u :: us, m, db =>
    let r := castVote .upvote u m Env.ok db []
    let rest := castFreshUpvotes us m r.db
    (rest.1, r.status :: rest.2)

/-- C8: N distinct users, each with vote state NONE on message M, all cast
an upvote on M (in an arbitrary serialization order, the transaction of
each request being atomic); every request succeeds with status 200 and
`upvotes(M)` increases by exactly N — the counter update is the relative
increment `upvotes = upvotes + delta` against the stored row, so no delta
is lost. -/
theorem concurrent_fresh_upvotes_increase_by_N (users : List String) (m : String)
    (db : DB) (row : Message)
    (hm : findMessage db m = some row)
    (hnodup : users.Nodup)
    (hfresh : ∀ u ∈ users, lookupVote db u m = none) :
    (castFreshUpvotes users m db).2 = List.replicate users.length 200 ∧
    (findMessage (castFreshUpvotes users m db).1 m).map (·.upvotes)
      = some (row.upvotes + users.length) := by
  induction users generalizing db row with
  | nil =>
    constructor
    · rfl
    · simp [castFreshUpvotes, hm]
  | cons u us ih =>
    have hmsome : (findMessage db m).isSome := by rw [hm]; rfl
    have hu : lookupVote db u m = none := hfresh u (List.mem_cons_self u us)
    have hrow_id : row.id = m := by
      have := List.find?_some hm
      simpa using this
    have hstep : (castVote .upvote u m Env.ok db []).db
        = bumpCounters (insertVote db u m .upvote) m 1 0 :=
      castVoteDB_up_of_none u m db hmsome hu
    have hstatus : (castVote .upvote u m Env.ok db []).status = 200 :=
      castVote_status_of_found .upvote u m db [] hmsome
    have hm1 : findMessage (castVote .upvote u m Env.ok db []).db m
        = some { row with upvotes := row.upvotes + 1, downvotes := row.downvotes + 0 } := by
      rw [hstep, findMessage_bumpCounters, findMessage_insertVote, hm]
      simp [hrow_id]
    have hfresh1 : ∀ u' ∈ us, lookupVote (castVote .upvote u m Env.ok db []).db u' m = none := by
      intro u' hu'
      rw [hstep, lookupVote_bumpCounters, lookupVote_insertVote_other]
      · exact hfresh u' (List.mem_cons_of_mem u hu')
      · intro hc
        exact (List.nodup_cons.mp hnodup).1 (hc.1 ▸ hu')
    obtain ⟨ih1, ih2⟩ := ih (castVote .upvote u m Env.ok db []).db
      { row with upvotes := row.upvotes + 1, downvotes := row.downvotes + 0 }
      hm1 (List.nodup_cons.mp hnodup).2 hfresh1
    constructor
    · show (castVote .upvote u m Env.ok db []).status
        :: (castFreshUpvotes us m (castVote .upvote u m Env.ok db []).db).2 = _
      rw [hstatus, ih1]
      rfl
    · show (findMessage (castFreshUpvotes us m (castVote .upvote u m Env.ok db []).db).1 m).map
        (·.upvotes) = _
      rw [ih2]
      congr 1
      simp only [List.length_cons]
      push_cast
      ring

/-- Witness for `concurrent_fresh_upvotes_increase_by_N`: three fresh
voters on a message with 2 upvotes, ending at 5. -/
theorem concurrent_fresh_upvotes_increase_by_N_witness :
    (findMessage ⟨[⟨"m1", "a", "b", "hi", 2, 0⟩], []⟩ "m1" = some ⟨"m1", "a", "b", "hi", 2, 0⟩ ∧
      ["u1", "u2", "u3"].Nodup ∧
      ∀ u ∈ ["u1", "u2", "u3"], lookupVote ⟨[⟨"m1", "a", "b", "hi", 2, 0⟩], []⟩ u "m1" = none) ∧
    (findMessage (castFreshUpvotes ["u1", "u2", "u3"] "m1"
        ⟨[⟨"m1", "a", "b", "hi", 2, 0⟩], []⟩).1 "m1").map (·.upvotes) = some 5 :=
  ⟨⟨by decide, by decide, by decide⟩, by
    have h := (concurrent_fresh_upvotes_increase_by_N ["u1", "u2", "u3"] "m1"
      ⟨[⟨"m1", "a", "b", "hi", 2, 0⟩], []⟩ ⟨"m1", "a", "b", "hi", 2, 0⟩
      (by decide) (by decide) (by decide)).2
    simpa using h⟩

/-- C4 counterexample: with a healthy cache and a commit that fails, the
vote handler leaves the ledger unchanged (rolled back) but the Cache Mirror
has already been written with the new counters — so the cache is neither
written only after a successful commit nor left unchanged when the commit
fails. -/
theorem cache_written_before_commit_counterexample :
    (castVote .upvote "alice" "m1" ⟨false, false, false, false, false, true⟩
        ⟨[⟨"m1", "a", "b", "hi", 0, 0⟩], []⟩ []).db = ⟨[⟨"m1", "a", "b", "hi", 0, 0⟩], []⟩ ∧
    ¬ (castVote .upvote "alice" "m1" ⟨false, false, false, false, false, true⟩
        ⟨[⟨"m1", "a", "b", "hi", 0, 0⟩], []⟩ []).cache = ([] : Cache) ∧
    (castVote .upvote "alice" "m1" ⟨false, false, false, false, false, true⟩
        ⟨[⟨"m1", "a", "b", "hi", 0, 0⟩], []⟩ []).cache
      = [("message:m1", ⟨some 1, some 0⟩)] := by
  decide

/-- C4 (amended): in the vote handlers a cache-write failure never changes
the database outcome, the status or the error seen by the caller (the
`HSet` results are discarded), and a failure of any transaction step before
the counter update leaves both cache and ledger unchanged; however, the
cache is written inside the request BEFORE `tx.Commit()`, so when only the
commit fails the ledger is rolled back while the cache has already received
exactly the counters a successful run would have written
(`cache_written_before_commit_counterexample` shows them concretely). -/
theorem cache_write_ordering (t : VoteType) (u m : String) (db : DB) (cache : Cache)
    (msgRow : Message) (hm : findMessage db m = some msgRow) :
    (∀ env : Env,
      (castVote t u m { env with cacheFails := true } db cache).db
          = (castVote t u m { env with cacheFails := false } db cache).db ∧
      (castVote t u m { env with cacheFails := true } db cache).status
          = (castVote t u m { env with cacheFails := false } db cache).status ∧
      (castVote t u m { env with cacheFails := true } db cache).error
          = (castVote t u m { env with cacheFails := false } db cache).error ∧
      (castVote t u m { env with cacheFails := true } db cache).cache = cache) ∧
    (∀ env : Env,
      env.beginFails = true ∨ env.selectVoteFails = true ∨ env.execVoteFails = true ∨
        env.execCountersFails = true →
      (castVote t u m env db cache).cache = cache ∧
      (castVote t u m env db cache).db = db) ∧
    ((castVote t u m ⟨false, false, false, false, false, true⟩ db cache).db = db ∧
      (castVote t u m ⟨false, false, false, false, false, true⟩ db cache).cache
        = (castVote t u m Env.ok db cache).cache ∧
      (castVote t u m ⟨false, false, false, false, false, true⟩ db cache).status = 500) := by
  refine ⟨?_, ?_, ?_⟩
  · intro env
    obtain ⟨b1, b2, b3, b4, b5, b6⟩ := env
    cases t <;> cases b1 <;> cases b2 <;> cases b3 <;> cases b4 <;> cases b6 <;>
      simp [castVote, upvoteMessageHandler, downvoteMessageHandler, hm]
  · intro env henv
    obtain ⟨b1, b2, b3, b4, b5, b6⟩ := env
    simp only at henv
    cases t <;> cases b1 <;> cases b2 <;> cases b3 <;> cases b4 <;>
      first
      | (constructor <;> simp [castVote, upvoteMessageHandler, downvoteMessageHandler, hm] <;>
          done)
      | (exfalso; rcases henv with h | h | h | h <;> exact Bool.false_ne_true h)
  · refine ⟨?_, ?_, ?_⟩ <;>
      cases t <;> simp [castVote, upvoteMessageHandler, downvoteMessageHandler, Env.ok, hm]

/-- Witness for `cache_write_ordering`: a concrete message and a failing
transaction begin, after which the cache is untouched. -/
theorem cache_write_ordering_witness :
    findMessage ⟨[⟨"m1", "a", "b", "hi", 0, 0⟩], []⟩ "m1" = some ⟨"m1", "a", "b", "hi", 0, 0⟩ ∧
    (castVote .upvote "alice" "m1" ⟨true, false, false, false, false, false⟩
        ⟨[⟨"m1", "a", "b", "hi", 0, 0⟩], []⟩ []).cache = ([] : Cache) :=
  ⟨by decide,
    ((cache_write_ordering .upvote "alice" "m1" ⟨[⟨"m1", "a", "b", "hi", 0, 0⟩], []⟩ []
        ⟨"m1", "a", "b", "hi", 0, 0⟩ (by decide)).2.1 ⟨true, false, false, false, false, false⟩
      (Or.inl rfl)).1⟩

/-- C5 counterexample: casting a vote on a message id that does not exist
answers HTTP 500 with the generic error `Failed to fetch message votes`,
not a NotFound (404) error as the claim states. -/
theorem vote_missing_message_counterexample :
    (castVote .upvote "alice" "m9" Env.ok ⟨[], []⟩ []).status = 500 ∧
    ¬ (castVote .upvote "alice" "m9" Env.ok ⟨[], []⟩ []).status = 404 ∧
    (castVote .upvote "alice" "m9" Env.ok ⟨[], []⟩ []).error
      = some "Failed to fetch message votes" := by
  decide

/-- C5 (amended): when no message with the requested id exists, both vote
handlers fail the request — but with a generic internal error (HTTP 500,
`Failed to fetch message votes`) rather than a NotFound error — and the
failed call creates or changes no vote record, no counter, and no cache
entry, and broadcasts nothing. -/
theorem vote_on_missing_message (t : VoteType) (u m : String) (db : DB) (cache : Cache)
    (hm : findMessage db m = none) :
    (castVote t u m Env.ok db cache).status = 500 ∧
    (castVote t u m Env.ok db cache).error = some "Failed to fetch message votes" ∧
    (castVote t u m Env.ok db cache).db = db ∧
    (castVote t u m Env.ok db cache).cache = cache ∧
    (castVote t u m Env.ok db cache).broadcastMsg = none := by
  cases t <;> simp [castVote, upvoteMessageHandler, downvoteMessageHandler, Env.ok, hm]

/-- Witness for `vote_on_missing_message`: empty store, unknown id. -/
theorem vote_on_missing_message_witness :
    findMessage ⟨[], []⟩ "m9" = none ∧
    (castVote .upvote "alice" "m9" Env.ok ⟨[], []⟩ []).db = ⟨[], []⟩ :=
  ⟨by decide,
    (vote_on_missing_message .upvote "alice" "m9" ⟨[], []⟩ [] (by decide)).2.2.1⟩

theorem find?_filter_of_imp {α : Type} (l : List α) (p q : α → Bool)
    (h : ∀ x, p x = true → q x = true) :
    (l.filter q).find? p = l.find? p := by
  induction l with
  | nil => rfl
  | cons a tl ih =>
    by_cases hq : q a = true
    · rw [filter_cons_pos q a tl hq]
      by_cases hp : p a = true
      · rw [find?_cons_pos p a _ hp, find?_cons_pos p a tl hp]
      · rw [find?_cons_neg p a _ (Bool.eq_false_iff.mpr hp),
          find?_cons_neg p a tl (Bool.eq_false_iff.mpr hp), ih]
    · rw [filter_cons_neg q a tl (Bool.eq_false_iff.mpr hq)]
      have hp : p a = false := by
        rcases Bool.eq_false_or_eq_true (p a) with h1 | h0
        · exact absurd (h a h1) hq
        · exact h0
      rw [find?_cons_neg p a tl hp, ih]

theorem lookupClient_removeClient_self (cs : Registry) (u : String) :
    lookupClient (removeClient cs u) u = none := by
  unfold lookupClient removeClient
  have hf : ((cs.filter (fun e => !(e.1 == u))).find? (fun e => e.1 == u)) = none := by
    rw [List.find?_eq_none]
    intro e he
    have hmem := List.of_mem_filter he
    rw [Bool.not_eq_true'] at hmem
    simp [hmem]
  rw [hf]
  rfl

theorem lookupClient_removeClient_other (cs : Registry) (u u' : String)
    (hne : ¬ u' = u) :
    lookupClient (removeClient cs u) u' = lookupClient cs u' := by
  unfold lookupClient removeClient
  rw [find?_filter_of_imp]
  intro x hx
  rw [Bool.not_eq_true']
  rw [beq_iff_eq] at hx
  exact beq_eq_false_iff_ne.mpr (by rw [hx]; exact hne)

theorem keys_removeClient (cs : Registry) (u : String)
    (hnd : (cs.map Prod.fst).Nodup) :
    ((removeClient cs u).map Prod.fst).Nodup :=
  hnd.sublist (List.Sublist.map Prod.fst (List.filter_sublist _))

theorem removeClient_noop (cs : Registry) (u : String)
    (h : lookupClient cs u = none) :
    removeClient cs u = cs := by
  unfold removeClient
  rw [List.filter_eq_self]
  intro e he
  unfold lookupClient at h
  have hf := Option.map_eq_none'.mp h
  have hne := List.find?_eq_none.mp hf e he
  rw [Bool.not_eq_true']
  exact Bool.eq_false_iff.mpr hne

theorem keys_setClient (cs : Registry) (u : String) (c : Conn)
    (hnd : (cs.map Prod.fst).Nodup) :
    ((setClient cs u c).map Prod.fst).Nodup := by
  unfold setClient
  by_cases hany : cs.any (fun e => e.1 == u) = true
  · rw [if_pos hany]
    have hkeys : (cs.map (fun e => if e.1 == u then (u, c) else e)).map Prod.fst
        = cs.map Prod.fst := by
      rw [List.map_map]
      apply List.map_congr_left
      intro e _
      by_cases he : (e.1 == u) = true
      · simp only [Function.comp, if_pos he]
        exact (beq_iff_eq.mp he).symm
      · simp [Function.comp, he]
    rw [hkeys]
    exact hnd
  · rw [if_neg hany]
    rw [List.map_append, List.nodup_append]
    refine ⟨hnd, List.nodup_singleton _, ?_⟩
    intro k hk hk'
    have hke : k = u := by simpa using hk'
    subst hke
    rcases List.mem_map.mp hk with ⟨e, he, hke⟩
    exact hany (List.any_eq_true.mpr ⟨e, he, by simp [hke]⟩)

theorem lookupClient_setClient_self (cs : Registry) (u : String) (c : Conn) :
    lookupClient (setClient cs u c) u = some c := by
  unfold lookupClient setClient
  by_cases hany : cs.any (fun e => e.1 == u) = true
  · rw [if_pos hany]
    have hpres : ∀ e : String × Conn,
        ((fun e : String × Conn => e.1 == u) (if e.1 == u then (u, c) else e))
          = (e.1 == u) := by
      intro e
      by_cases he : (e.1 == u) = true
      · rw [if_pos he]
        simp [he]
      · rw [if_neg he]
    rw [find?_map_of_pres _ _ _ hpres]
    rcases hf : cs.find? (fun e => e.1 == u) with _ | e0
    · rw [List.find?_eq_none] at hf
      rcases List.any_eq_true.mp hany with ⟨e, he, hpe⟩
      exact absurd hpe (hf e he)
    · have hkey := List.find?_some hf
      rw [hf, Option.map_some', if_pos hkey]
      rfl
  · rw [if_neg hany]
    rw [List.find?_append]
    have hf : cs.find? (fun e => e.1 == u) = none := by
      rw [List.find?_eq_none]
      intro e he hc
      exact hany (List.any_eq_true.mpr ⟨e, he, hc⟩)
    rw [hf]
    simp [List.find?]

theorem lookupClient_setClient_other (cs : Registry) (u : String) (c : Conn)
    (u' : String) (hne : ¬ u' = u) :
    lookupClient (setClient cs u c) u' = lookupClient cs u' := by
  unfold lookupClient setClient
  by_cases hany : cs.any (fun e => e.1 == u) = true
  · rw [if_pos hany]
    have hpres : ∀ e : String × Conn,
        ((fun e : String × Conn => e.1 == u') (if e.1 == u then (u, c) else e))
          = (e.1 == u') := by
      intro e
      by_cases he : (e.1 == u) = true
      · rw [if_pos he]
        have h1 : (u == u') = false :=
          beq_eq_false_iff_ne.mpr (fun hc => hne hc.symm)
        have h2 : (e.1 == u') = false := by
          rw [beq_iff_eq.mp he]
          exact h1
        simp [h1, h2]
      · rw [if_neg he]
    rw [find?_map_of_pres _ _ _ hpres]
    rcases hf : cs.find? (fun e => e.1 == u') with _ | e0
    · rw [hf]
      rfl
    · have hkey := List.find?_some hf
      rw [hf, Option.map_some']
      have he0 : (if e0.1 == u then (u, c) else e0) = e0 := by
        rw [if_neg]
        intro hc
        exact hne (by rw [← beq_iff_eq.mp hkey, beq_iff_eq.mp hc])
      rw [he0]
  · rw [if_neg hany]
    rw [List.find?_append]
    have hx : ((u, c).1 == u') = false :=
      beq_eq_false_iff_ne.mpr (fun hc => hne hc.symm)
    rcases hf : cs.find? (fun e => e.1 == u') with _ | e0
    · simp [List.find?, hx]
    · rw [hf]
      rfl

/-- C6 counterexample: re-registering a user replaces the map entry but
does not close the prior channel — after alice's connection 1 is replaced
by connection 2, connection 1 has not been closed. -/
theorem register_does_not_close_prior_counterexample :
    (wsHandlerRegister ⟨[("alice", ⟨1, false⟩)], []⟩ "alice" ⟨2, false⟩).clients
      = [("alice", ⟨2, false⟩)] ∧
    ¬ 1 ∈ (wsHandlerRegister ⟨[("alice", ⟨1, false⟩)], []⟩ "alice" ⟨2, false⟩).closedConns := by
  decide

/-- C6 (amended): the connection registry keeps at most one entry per user
(uniqueness of keys is preserved by both operations), registration is
last-registration-wins (the new channel becomes the sole target and other
users are untouched) but the prior channel is NOT closed by the
registration itself — no `Close` is issued there
(`register_does_not_close_prior_counterexample`); deregistration removes
the entry when present, touches no other user, and is a no-op when the
user has no entry. -/
theorem registry_register_deregister (w : WsWorld) (u : String) (c : Conn)
    (hnd : (w.clients.map Prod.fst).Nodup) :
    ((wsHandlerRegister w u c).clients.map Prod.fst).Nodup ∧
    lookupClient (wsHandlerRegister w u c).clients u = some c ∧
    (∀ u', ¬ u' = u → lookupClient (wsHandlerRegister w u c).clients u'
        = lookupClient w.clients u') ∧
    (wsHandlerRegister w u c).closedConns = w.closedConns ∧
    ((wsHandlerDeregister w u).clients.map Prod.fst).Nodup ∧
    lookupClient (wsHandlerDeregister w u).clients u = none ∧
    (∀ u', ¬ u' = u → lookupClient (wsHandlerDeregister w u).clients u'
        = lookupClient w.clients u') ∧
    (lookupClient w.clients u = none → (wsHandlerDeregister w u).clients = w.clients) := by
  refine ⟨keys_setClient w.clients u c hnd, lookupClient_setClient_self w.clients u c,
    fun u' hne => lookupClient_setClient_other w.clients u c u' hne, rfl,
    keys_removeClient w.clients u hnd, lookupClient_removeClient_self w.clients u,
    fun u' hne => lookupClient_removeClient_other w.clients u u' hne,
    fun h => ?_⟩
  show { w with clients := removeClient w.clients u }.clients = w.clients
  rw [removeClient_noop w.clients u h]

/-- Witness for `registry_register_deregister` on a one-entry registry. -/
theorem registry_register_deregister_witness :
    (([("bob", (⟨7, false⟩ : Conn))].map Prod.fst).Nodup) ∧
    lookupClient (wsHandlerRegister ⟨[("bob", ⟨7, false⟩)], []⟩ "alice" ⟨2, false⟩).clients
      "alice" = some ⟨2, false⟩ :=
  ⟨by decide,
    (registry_register_deregister ⟨[("bob", ⟨7, false⟩)], []⟩ "alice" ⟨2, false⟩
      (by decide)).2.1⟩

theorem sendMessageToUser_not_registered (userID : String) (msg : Message) (st : SendOut)
    (h : lookupClient st.clients userID = none) :
    sendMessageToUser userID msg st = st := by
  unfold sendMessageToUser
  rw [h]

theorem sendMessageToUser_ok (userID : String) (msg : Message) (st : SendOut) (c : Conn)
    (h : lookupClient st.clients userID = some c) (hb : c.broken = false) :
    sendMessageToUser userID msg st
      = { st with delivered := st.delivered ++ [(userID, msg)] } := by
  unfold sendMessageToUser
  rw [h]
  simp [hb]

theorem sendMessageToUser_broken (userID : String) (msg : Message) (st : SendOut) (c : Conn)
    (h : lookupClient st.clients userID = some c) (hb : c.broken = true) :
    sendMessageToUser userID msg st
      = { st with clients := removeClient st.clients userID,
                  closed := st.closed ++ [c.connId] } := by
  unfold sendMessageToUser
  rw [h]
  simp [hb]

theorem sendMessageToUser_delivered_sub (userID : String) (msg : Message) (st : SendOut) :
    ∀ d ∈ (sendMessageToUser userID msg st).delivered,
      d ∈ st.delivered ∨ d = (userID, msg) := by
  unfold sendMessageToUser
  rcases lookupClient st.clients userID with _ | c
  · intro d hd
    exact Or.inl hd
  · by_cases hb : c.broken = true
    · simp only [hb, if_true]
      intro d hd
      exact Or.inl hd
    · simp only [Bool.eq_false_iff.mpr hb, Bool.false_eq_true, if_false]
      intro d hd
      rcases List.mem_append.mp hd with h1 | h2
      · exact Or.inl h1
      · exact Or.inr (by simpa using h2)

theorem sendMessageToUser_countP_other (userID : String) (msg : Message) (st : SendOut)
    (p : String × Message → Bool) (hp : p (userID, msg) = false) :
    (sendMessageToUser userID msg st).delivered.countP p = st.delivered.countP p := by
  unfold sendMessageToUser
  rcases lookupClient st.clients userID with _ | c
  · rfl
  · by_cases hb : c.broken = true
    · simp [hb]
    · simp only [Bool.eq_false_iff.mpr hb, Bool.false_eq_true, if_false]
      rw [List.countP_append, List.countP_cons]
      simp [hp]

theorem sendMessageHandler_eq (req : Message) (store : Store) (cs : Registry) :
    sendMessageHandler false req store cs
      = ⟨⟨store.nextId + 1, store.rows ++ [⟨toString store.nextId, req.sender, req.receiver,
          req.content, 0, 0⟩]⟩,
        (handleMessagesStep { req with id := toString store.nextId } cs).clients,
        (handleMessagesStep { req with id := toString store.nextId } cs).delivered,
        (handleMessagesStep { req with id := toString store.nextId } cs).closed,
        201, some { req with id := toString store.nextId }⟩ := rfl

theorem handleMessagesStep_eq (msg : Message) (cs : Registry) :
    handleMessagesStep msg cs
      = sendMessageToUser msg.receiver msg (sendMessageToUser msg.sender msg ⟨cs, [], []⟩) :=
  rfl

/-- C7 counterexample: when sender and receiver are the same registered
user, a single `sendMessage` call delivers the created message to that
participant twice, not exactly once. -/
theorem send_self_message_double_delivery_counterexample :
    (sendMessageHandler false ⟨"", "alice", "alice", "hey", 0, 0⟩ ⟨4, []⟩
        [("alice", ⟨1, false⟩)]).delivered.countP (fun d => d.1 == "alice") = 2 ∧
    ¬ (sendMessageHandler false ⟨"", "alice", "alice", "hey", 0, 0⟩ ⟨4, []⟩
        [("alice", ⟨1, false⟩)]).delivered.countP (fun d => d.1 == "alice") = 1 := by
  decide

/-- C7 (amended): for a `sendMessage` call with distinct sender and
receiver, the caller always gets 201 (never an error from delivery), every
delivery event carries the created message and targets only the sender or
the receiver; a participant registered with a working channel receives
exactly one delivery event, an unregistered participant receives none, and
a participant whose registered channel fails the push receives none, is
deregistered and has their connection closed, without retry and without any
error to the caller.  When sender = receiver, the one registered
participant instead receives the event twice
(`send_self_message_double_delivery_counterexample`). -/
theorem sendMessage_exactly_once_delivery (req : Message) (store : Store) (cs : Registry)
    (S : SendResult) (hS : S = sendMessageHandler false req store cs)
    (hne : ¬ req.sender = req.receiver) :
    S.status = 201 ∧
    (∀ d ∈ S.delivered, d.2 = { req with id := toString store.nextId }
      ∧ (d.1 = req.sender ∨ d.1 = req.receiver)) ∧
    (∀ c, lookupClient cs req.sender = some c → c.broken = false →
      S.delivered.countP (fun d => d.1 == req.sender) = 1) ∧
    (lookupClient cs req.sender = none →
      S.delivered.countP (fun d => d.1 == req.sender) = 0) ∧
    (∀ c, lookupClient cs req.sender = some c → c.broken = true →
      S.delivered.countP (fun d => d.1 == req.sender) = 0 ∧
      lookupClient S.clients req.sender = none ∧ c.connId ∈ S.closed) ∧
    (∀ c, lookupClient cs req.receiver = some c → c.broken = false →
      S.delivered.countP (fun d => d.1 == req.receiver) = 1) ∧
    (lookupClient cs req.receiver = none →
      S.delivered.countP (fun d => d.1 == req.receiver) = 0) ∧
    (∀ c, lookupClient cs req.receiver = some c → c.broken = true →
      S.delivered.countP (fun d => d.1 == req.receiver) = 0 ∧
      lookupClient S.clients req.receiver = none ∧ c.connId ∈ S.closed) := by
  subst hS
  have hners : ¬ req.receiver = req.sender := fun hc => hne hc.symm
  have hb1 : (req.receiver == req.sender) = false := beq_eq_false_iff_ne.mpr hners
  have hb2 : (req.sender == req.receiver) = false := beq_eq_false_iff_ne.mpr hne
  rw [sendMessageHandler_eq, handleMessagesStep_eq]
  rcases hs : lookupClient cs req.sender with _ | c1
  · rw [sendMessageToUser_not_registered
      ({ req with id := toString store.nextId } : Message).sender
      { req with id := toString store.nextId } ⟨cs, [], []⟩ hs]
    rcases hr : lookupClient cs req.receiver with _ | c2
    · rw [sendMessageToUser_not_registered _ _ _ hr]
      refine ⟨rfl, ?_, ?_, ?_, ?_, ?_, ?_, ?_⟩ <;>
        simp_all [List.countP_cons]
    · rcases hbc2 : c2.broken with _ | _
      · rw [sendMessageToUser_ok _ _ _ c2 hr hbc2]
        refine ⟨rfl, ?_, ?_, ?_, ?_, ?_, ?_, ?_⟩ <;>
          simp_all [List.countP_cons]
      · rw [sendMessageToUser_broken _ _ _ c2 hr hbc2]
        have hrr : lookupClient (removeClient cs req.receiver) req.receiver = none :=
          lookupClient_removeClient_self cs req.receiver
        refine ⟨rfl, ?_, ?_, ?_, ?_, ?_, ?_, ?_⟩ <;>
          simp_all [List.countP_cons]
  · rcases hbc1 : c1.broken with _ | _
    · rw [sendMessageToUser_ok
        ({ req with id := toString store.nextId } : Message).sender
        { req with id := toString store.nextId } ⟨cs, [], []⟩ c1 hs hbc1]
      rcases hr : lookupClient cs req.receiver with _ | c2
      · rw [sendMessageToUser_not_registered _ _ _ hr]
        refine ⟨rfl, ?_, ?_, ?_, ?_, ?_, ?_, ?_⟩ <;>
          simp_all [List.countP_cons]
      · rcases hbc2 : c2.broken with _ | _
        · rw [sendMessageToUser_ok _ _ _ c2 hr hbc2]
          refine ⟨rfl, ?_, ?_, ?_, ?_, ?_, ?_, ?_⟩ <;>
            simp_all [List.countP_cons]
        · rw [sendMessageToUser_broken _ _ _ c2 hr hbc2]
          have hrr : lookupClient (removeClient cs req.receiver) req.receiver = none :=
            lookupClient_removeClient_self cs req.receiver
          refine ⟨rfl, ?_, ?_, ?_, ?_, ?_, ?_, ?_⟩ <;>
            simp_all [List.countP_cons]
    · rw [sendMessageToUser_broken
          ({ req with id := toString store.nextId } : Message).sender
          { req with id := toString store.nextId } ⟨cs, [], []⟩ c1 hs hbc1]
      have hrs : lookupClient (removeClient cs req.sender) req.sender = none :=
        lookupClient_removeClient_self cs req.sender
      have hro : lookupClient (removeClient cs req.sender) req.receiver
          = lookupClient cs req.receiver :=
        lookupClient_removeClient_other cs req.sender req.receiver hners
      rcases hr : lookupClient cs req.receiver with _ | c2
      · rw [sendMessageToUser_not_registered _ _ _ (by rw [hro]; exact hr)]
        refine ⟨rfl, ?_, ?_, ?_, ?_, ?_, ?_, ?_⟩ <;>
          simp_all [List.countP_cons]
      · rcases hbc2 : c2.broken with _ | _
        · rw [sendMessageToUser_ok _ _ _ c2 (by rw [hro]; exact hr) hbc2]
          refine ⟨rfl, ?_, ?_, ?_, ?_, ?_, ?_, ?_⟩ <;>
            simp_all [List.countP_cons]
        · rw [sendMessageToUser_broken _ _ _ c2 (by rw [hro]; exact hr) hbc2]
          have hrr : lookupClient (removeClient (removeClient cs req.sender) req.receiver)
              req.receiver = none :=
            lookupClient_removeClient_self _ req.receiver
          have hrs2 : lookupClient (removeClient (removeClient cs req.sender) req.receiver)
              req.sender = none := by
            rw [lookupClient_removeClient_other _ req.receiver req.sender hne]
            exact hrs
          refine ⟨rfl, ?_, ?_, ?_, ?_, ?_, ?_, ?_⟩ <;>
            simp_all [List.countP_cons]

/-- Witness for `sendMessage_exactly_once_delivery`: both participants
registered with working channels; the sender's count is exactly 1. -/
theorem sendMessage_exactly_once_delivery_witness :
    ((sendMessageHandler false ⟨"", "alice", "bob", "hey", 0, 0⟩ ⟨4, []⟩
        [("alice", ⟨1, false⟩), ("bob", ⟨2, false⟩)]
      = sendMessageHandler false ⟨"", "alice", "bob", "hey", 0, 0⟩ ⟨4, []⟩
        [("alice", ⟨1, false⟩), ("bob", ⟨2, false⟩)]) ∧
      ¬ ("alice" : String) = "bob" ∧
      lookupClient [("alice", (⟨1, false⟩ : Conn)), ("bob", ⟨2, false⟩)] "alice"
        = some ⟨1, false⟩) ∧
    (sendMessageHandler false ⟨"", "alice", "bob", "hey", 0, 0⟩ ⟨4, []⟩
        [("alice", ⟨1, false⟩), ("bob", ⟨2, false⟩)]).delivered.countP
      (fun d => d.1 == "alice") = 1 :=
  ⟨⟨rfl, by decide, by decide⟩,
    (sendMessage_exactly_once_delivery ⟨"", "alice", "bob", "hey", 0, 0⟩ ⟨4, []⟩
      [("alice", ⟨1, false⟩), ("bob", ⟨2, false⟩)] _ rfl (by decide)).2.2.1
      ⟨1, false⟩ (by decide) rfl⟩

theorem handleMessagesStep_delivered_sub (msg : Message) (cs : Registry) :
    ∀ d ∈ (handleMessagesStep msg cs).delivered,
      d.2 = msg ∧ (d.1 = msg.sender ∨ d.1 = msg.receiver) := by
  intro d hd
  rw [handleMessagesStep_eq] at hd
  rcases sendMessageToUser_delivered_sub _ _ _ d hd with h1 | h2
  · rcases sendMessageToUser_delivered_sub _ _ _ d h1 with h0 | h2
    · exact absurd h0 (List.not_mem_nil d)
    · rw [h2]
      exact ⟨rfl, Or.inl rfl⟩
  · rw [h2]
    exact ⟨rfl, Or.inr rfl⟩

/-- C9: `sendMessageHandler` inserts the new row with upvotes 0 and
downvotes 0, but the `Message` answered to the caller and pushed onto the
broadcast channel is the request body with only the `ID` field overwritten
by the store-assigned id — it keeps the request's upvotes and downvotes, so
a request carrying non-zero counters is answered with counters that differ
from the stored row's zeros. -/
theorem sendMessage_stored_row_vs_response (req : Message) (store : Store) (cs : Registry) :
    (sendMessageHandler false req store cs).store.rows
      = store.rows ++ [⟨toString store.nextId, req.sender, req.receiver, req.content, 0, 0⟩] ∧
    (sendMessageHandler false req store cs).response
      = some { req with id := toString store.nextId } ∧
    (∀ d ∈ (sendMessageHandler false req store cs).delivered,
      d.2 = { req with id := toString store.nextId }) ∧
    (¬ req.upvotes = 0 →
      ¬ (sendMessageHandler false req store cs).response.map (·.upvotes) = some (0 : Int)) := by
  rw [sendMessageHandler_eq]
  refine ⟨rfl, rfl, ?_, ?_⟩
  · intro d hd
    exact (handleMessagesStep_delivered_sub _ _ d hd).1
  · intro hup
    simp [hup]

/-- Witness for `sendMessage_stored_row_vs_response`: a request carrying
upvotes 5 is answered with upvotes 5, not the stored 0. -/
theorem sendMessage_stored_row_vs_response_witness :
    ¬ (5 : Int) = 0 ∧
    ¬ (sendMessageHandler false ⟨"", "a", "b", "x", 5, 7⟩ ⟨1, []⟩ []).response.map (·.upvotes)
        = some (0 : Int) :=
  ⟨by decide,
    (sendMessage_stored_row_vs_response ⟨"", "a", "b", "x", 5, 7⟩ ⟨1, []⟩ []).2.2.2
      (by decide)⟩

/-- C10: a `Message` object read from a client's WebSocket is forwarded
verbatim to the connections registered for the sender and receiver named
INSIDE the object, independently of which user's connection wrote it, and
the message store is untouched — so the injected event is delivered live
but absent from any later `getMessagesHandler` read (unless an identical
row already existed). -/
theorem ws_injected_message_forward (w w' : String) (msg : Message)
    (store : Store) (cs : Registry) :
    (wsHandlerForward w msg store cs).1 = store ∧
    wsHandlerForward w msg store cs = wsHandlerForward w' msg store cs ∧
    (∀ d ∈ (wsHandlerForward w msg store cs).2.delivered,
      d.2 = msg ∧ (d.1 = msg.sender ∨ d.1 = msg.receiver)) ∧
    (∀ a b, getMessagesHandler (wsHandlerForward w msg store cs).1 a b
        = getMessagesHandler store a b) ∧
    (¬ msg ∈ store.rows →
      ∀ a b, ¬ msg ∈ getMessagesHandler (wsHandlerForward w msg store cs).1 a b) := by
  refine ⟨rfl, rfl, ?_, fun a b => rfl, ?_⟩
  · intro d hd
    exact handleMessagesStep_delivered_sub msg cs d hd
  · intro hmem a b hc
    exact hmem (List.mem_of_mem_filter hc)

/-- Witness for `ws_injected_message_forward`: a spoofed message written on
eve's connection, naming alice and bob, is not readable back from the
store. -/
theorem ws_injected_message_forward_witness :
    ¬ (⟨"x", "alice", "bob", "fake", 9, 9⟩ : Message) ∈ ([] : List Message) ∧
    ¬ (⟨"x", "alice", "bob", "fake", 9, 9⟩ : Message) ∈
      getMessagesHandler (wsHandlerForward "eve" ⟨"x", "alice", "bob", "fake", 9, 9⟩
        ⟨3, []⟩ [("alice", ⟨1, false⟩), ("bob", ⟨2, false⟩)]).1 "alice" "bob" :=
  ⟨by decide,
    (ws_injected_message_forward "eve" "mallory" ⟨"x", "alice", "bob", "fake", 9, 9⟩
      ⟨3, []⟩ [("alice", ⟨1, false⟩), ("bob", ⟨2, false⟩)]).2.2.2.2 (by decide) "alice" "bob"⟩

/-- C3 counterexample: when the caller's starting vote state on the message
is DOWNVOTED, two successive upvote calls do not restore the pre-call
counters and vote state: on a message with upvotes 0, downvotes 1 and a
recorded downvote by alice, the second call leaves downvotes at 0 and the
vote state at NONE. -/
theorem castVote_double_upvote_counterexample :
    ¬ ((castVoteDB .upvote "alice" "m7"
          (castVoteDB .upvote "alice" "m7"
            ⟨[⟨"m7", "b", "c", "x", 0, 1⟩], [⟨"alice", "m7", .downvote⟩]⟩)).messages
        = (⟨[⟨"m7", "b", "c", "x", 0, 1⟩], [⟨"alice", "m7", .downvote⟩]⟩ : DB).messages ∧
       voteState (castVoteDB .upvote "alice" "m7"
          (castVoteDB .upvote "alice" "m7"
            ⟨[⟨"m7", "b", "c", "x", 0, 1⟩], [⟨"alice", "m7", .downvote⟩]⟩)) "alice" "m7"
        = voteState ⟨[⟨"m7", "b", "c", "x", 0, 1⟩], [⟨"alice", "m7", .downvote⟩]⟩ "alice" "m7") := by
  decide

/-- C3 (amended): calling `castVote(U, M, upvote)` twice in sequence leaves
M's counters (indeed every message row) and U's vote state on M exactly as
they were before the first call, provided U's starting vote state on M is
NONE or UPVOTED; starting from DOWNVOTED the pair of calls ends at NONE
with the starting downvote's counter contribution lost
(`castVote_double_upvote_counterexample`).  The spec's concrete example
(upvotes 2, downvotes 1, no prior vote from alice) falls in the NONE case
and is instantiated in the witness. -/
theorem castVote_double_upvote_restores (u m : String) (db : DB)
    (hm : (findMessage db m).isSome)
    (hs : voteState db u m ≠ .DOWNVOTED) :
    (castVoteDB .upvote u m (castVoteDB .upvote u m db)).messages = db.messages ∧
    voteState (castVoteDB .upvote u m (castVoteDB .upvote u m db)) u m
      = voteState db u m := by
  rcases hlv : lookupVote db u m with _ | (_ | _)
  · have hdb1 := castVoteDB_up_of_none u m db hm hlv
    have hm1 : (findMessage (castVoteDB .upvote u m db) m).isSome := by
      rw [hdb1, findMessage_bumpCounters]
      rcases Option.isSome_iff_exists.mp hm with ⟨msgRow, hm'⟩
      rw [findMessage_insertVote, hm']
      rfl
    have hlv1 : lookupVote (castVoteDB .upvote u m db) u m = some .upvote := by
      rw [hdb1, lookupVote_bumpCounters]
      exact lookupVote_insertVote_self db u m .upvote hlv
    have hdb2 := castVoteDB_up_of_up u m (castVoteDB .upvote u m db) hm1 hlv1
    constructor
    · rw [hdb2, hdb1]
      have hstep : (bumpCounters
            (deleteVote (bumpCounters (insertVote db u m .upvote) m 1 0) u m) m (-1) 0).messages
          = (bumpCounters (bumpCounters db m 1 0) m (-1) 0).messages := rfl
      rw [hstep, bumpCounters_bumpCounters]
      norm_num [bumpCounters_zero]
    · rw [hdb2]
      simp [voteState, lookupVote_bumpCounters, lookupVote_deleteVote_self, hlv]
  · have hdb1 := castVoteDB_up_of_up u m db hm hlv
    have hm1 : (findMessage (castVoteDB .upvote u m db) m).isSome := by
      rw [hdb1]
      exact findMessage_isSome_bumpCounters _ _ _ _ _ hm
    have hlv1 : lookupVote (castVoteDB .upvote u m db) u m = none := by
      rw [hdb1, lookupVote_bumpCounters]
      exact lookupVote_deleteVote_self db u m
    have hdb2 := castVoteDB_up_of_none u m (castVoteDB .upvote u m db) hm1 hlv1
    constructor
    · rw [hdb2, hdb1]
      have hstep : (bumpCounters
            (insertVote (bumpCounters (deleteVote db u m) m (-1) 0) u m .upvote) m 1 0).messages
          = (bumpCounters (bumpCounters db m (-1) 0) m 1 0).messages := rfl
      rw [hstep, bumpCounters_bumpCounters]
      norm_num [bumpCounters_zero]
    · rw [hdb2]
      have h2 := lookupVote_insertVote_self (castVoteDB .upvote u m db) u m .upvote hlv1
      simp [voteState, lookupVote_bumpCounters, h2, hlv]
  · exact absurd (by simp [voteState, hlv]) hs

/-- Witness for `castVote_double_upvote_restores`: the spec's example
message with upvotes 2, downvotes 1 and no prior vote from alice. -/
theorem castVote_double_upvote_restores_witness :
    ((findMessage ⟨[⟨"m7", "b", "c", "x", 2, 1⟩], []⟩ "m7").isSome ∧
      voteState ⟨[⟨"m7", "b", "c", "x", 2, 1⟩], []⟩ "alice" "m7" ≠ .DOWNVOTED) ∧
    (castVoteDB .upvote "alice" "m7" ⟨[⟨"m7", "b", "c", "x", 2, 1⟩], []⟩).messages
      = [⟨"m7", "b", "c", "x", 3, 1⟩] ∧
    (castVoteDB .upvote "alice" "m7"
        (castVoteDB .upvote "alice" "m7" ⟨[⟨"m7", "b", "c", "x", 2, 1⟩], []⟩)).messages
      = (⟨[⟨"m7", "b", "c", "x", 2, 1⟩], []⟩ : DB).messages :=
  ⟨⟨by decide, by decide⟩, by decide,
    (castVote_double_upvote_restores "alice" "m7" ⟨[⟨"m7", "b", "c", "x", 2, 1⟩], []⟩
      (by decide) (by decide)).1⟩

end RTChat
